import Mathlib

/-!
# Boid steering of `space/main.cpp`

A shallow embedding of the simulation core of `src/space/main.cpp`: the free
function `limit`, the methods of `class Boid` (`update`, `planehug`,
`zseparation`, `separation`, `alignment`, `cohesion`, `seek`, `steer`,
`calc_rotation_matrix`) and the methods `add_body` and `update` of
`class World`.

Modelling conventions.

* `float` is idealised: scalars live in a linearly ordered field `α` that
  carries a square root (`SqrtOp α`); rounding, overflow and underflow are
  not modelled.  The real numbers are the intended instance (`realSqrt`).
* A division whose divisor is zero has no value in the field (IEEE
  arithmetic yields an infinity or a NaN there, and every such division in
  this program yields a NaN); it is modelled by `none`, and `none`
  propagates the way a NaN does.
* `glm::length`, `glm::dot`, `glm::cross`, `glm::normalize` and the `vec3`
  operators are library code; they are modelled by their defining formulas.
* Object identity (`b == this`) is modelled by an address field `addr`.
* The neighbour list produced by `quadtree.query`, the global `cursor_pos`
  and `world.dt` are parameters of `Boid.update`; `World.update` supplies the
  list from `query`, the brute-force filter the specification prescribes.
* A body of a `World` whose position and velocity have no value is the entry
  `none` of the body list; the loop of `World.update` goes on past it.
-/

namespace Space

/-! ## Scalars -/

/-- Square root on a linearly ordered field, characterised on the
non-negative elements (the model of `sqrtf` under idealised arithmetic). -/
structure SqrtOp (α : Type) [LinearOrderedField α] where
  /-- The square-root function. -/
  sqrt : α → α
  /-- A square root is never negative. -/
  sqrt_nonneg : ∀ x, 0 ≤ sqrt x
  /-- On non-negative arguments the square root squares back. -/
  mul_self_sqrt : ∀ x, 0 ≤ x → sqrt x * sqrt x = x

/-- The square root of the real numbers. -/
noncomputable def realSqrt : SqrtOp ℝ :=
  ⟨Real.sqrt, Real.sqrt_nonneg, fun _ hx => Real.mul_self_sqrt hx⟩

/-- Scalar division `a / b`; a zero divisor yields no value. -/
def fdiv {α : Type} [LinearOrderedField α] (a b : α) : Option α :=
  if b = 0 then none else some (a / b)

/-! ## Vectors (`glm::vec3`) -/

/-- Three-component vector, the model of `vec3`. -/
@[ext]
structure Vec3 (α : Type) where
  /-- First component. -/
  x : α
  /-- Second component. -/
  y : α
  /-- Third component. -/
  z : α
deriving DecidableEq

namespace Vec3

variable {α : Type} [LinearOrderedField α]

/-- The vector `vec3(0, 0, 0)`. -/
instance : Zero (Vec3 α) := ⟨⟨0, 0, 0⟩⟩

/-- Component-wise sum, `operator+`. -/
instance : Add (Vec3 α) := ⟨fun a b => ⟨a.x + b.x, a.y + b.y, a.z + b.z⟩⟩

/-- Component-wise difference, `operator-`. -/
instance : Sub (Vec3 α) := ⟨fun a b => ⟨a.x - b.x, a.y - b.y, a.z - b.z⟩⟩

/-- Component-wise negation, unary `operator-`. -/
instance : Neg (Vec3 α) := ⟨fun a => ⟨-a.x, -a.y, -a.z⟩⟩

/-- Product of a vector with a scalar, `v * s`. -/
def scale (v : Vec3 α) (s : α) : Vec3 α := ⟨v.x * s, v.y * s, v.z * s⟩

/-- Quotient of a vector by a scalar, `v / s`; a zero divisor yields no value. -/
def div (v : Vec3 α) (s : α) : Option (Vec3 α) :=
  if s = 0 then none else some ⟨v.x / s, v.y / s, v.z / s⟩

/-- Inner product, `glm::dot`. -/
def dot (a b : Vec3 α) : α := a.x * b.x + a.y * b.y + a.z * b.z

/-- Vector product, `glm::cross`. -/
def cross (a b : Vec3 α) : Vec3 α :=
  ⟨a.y * b.z - b.y * a.z, a.z * b.x - b.z * a.x, a.x * b.y - b.x * a.y⟩

/-- Euclidean norm, `glm::length(v) = sqrt(dot(v, v))`. -/
def length (S : SqrtOp α) (v : Vec3 α) : α := S.sqrt (dot v v)

/-- Reciprocal square root, `glm::inversesqrt(x) = 1 / sqrt(x)`. -/
def inversesqrt (S : SqrtOp α) (x : α) : Option α := fdiv 1 (S.sqrt x)

/-- Unit vector, `glm::normalize(v) = v * inversesqrt(dot(v, v))`; the zero
vector has no unit vector. -/
def normalize (S : SqrtOp α) (v : Vec3 α) : Option (Vec3 α) :=
  (inversesqrt S (dot v v)).map fun r => v.scale r

end Vec3

open Vec3

/-! ## `limit` -/

section Model

variable {α : Type} [LinearOrderedField α]

/-- The free function `limit(v, len)` (main.cpp 129-133). -/
def limit (S : SqrtOp α) (v : Vec3 α) (len : α) : Option (Vec3 α) :=
  if length S v > len then
    (normalize S v).map fun n => n.scale len
  else
    some v

/-! ## `class Boid` -/

/-- The state of a `Boid`: the `Body` fields `pos`, `vel` and the `Boid`
fields `maxspeed`, `maxforce`, `team`, together with the address of the
object. -/
structure Boid (α : Type) where
  /-- Address of the object; two references are the same object exactly when
  their addresses agree. -/
  addr : Nat
  /-- Position (`Body::pos`). -/
  pos : Vec3 α
  /-- Velocity (`Body::vel`). -/
  vel : Vec3 α
  /-- Speed limit. -/
  maxspeed : α
  /-- Steering-force limit. -/
  maxforce : α
  /-- Team tag. -/
  team : Int

namespace Boid

/-- The method `Boid::steer` (main.cpp 263-269). -/
def steer (S : SqrtOp α) (self : Boid α) (dir : Vec3 α) : Option (Vec3 α) :=
  let len := length S dir
  if len < 1 / 1000000 then
    some 0
  else do
    let q ← fdiv self.maxspeed len
    let dir := dir.scale q
    limit S (dir - self.vel) self.maxforce

/-- The method `Boid::seek` (main.cpp 259-261). -/
def seek (S : SqrtOp α) (self : Boid α) (target : Vec3 α) : Option (Vec3 α) :=
  self.steer S (target - self.pos)

/-- The method `Boid::planehug` (main.cpp 167-171). -/
def planehug (S : SqrtOp α) (self : Boid α) : Option (Vec3 α) :=
  let target : Vec3 α := { self.pos with z := 0 }
  self.steer S (target - self.pos)

/-- One pass through the loop body of `Boid::separation` (main.cpp 203-211):
the state is `(sum, count)`. -/
def separationBody (S : SqrtOp α) (self : Boid α) (st : Vec3 α × Nat) (b : Boid α) :
    Option (Vec3 α × Nat) :=
  if b.addr = self.addr then some st
  else
    let d := self.pos - b.pos
    let len := length S d
    if len > 20 ∨ len ≤ 1 / 100000 then some st
    else do
      let d ← normalize S d
      let d ← d.div len
      some (st.1 + d, st.2 + 1)

/-- The method `Boid::separation` (main.cpp 198-217). -/
def separation (S : SqrtOp α) (self : Boid α) (neighbours : List (Boid α)) :
    Option (Vec3 α) := do
  let st ← neighbours.foldlM (separationBody S self) (0, 0)
  if st.2 = 0 then
    some 0
  else do
    let sum ← st.1.div (st.2 : α)
    self.steer S sum

/-- One pass through the loop body of `Boid::zseparation` (main.cpp 178-190):
the state is `(sum, count)`. -/
def zseparationBody (S : SqrtOp α) (self : Boid α) (st : Vec3 α × Nat) (b : Boid α) :
    Option (Vec3 α × Nat) :=
  if b.addr = self.addr then some st
  else
    let d := self.pos - b.pos
    let len := length S d
    if len > 20 ∨ len ≤ 1 / 100000 then some st
    else do
      let dz := d.z
      let dz ← if dz = 0 then do
          let u ← normalize S self.vel
          let w ← normalize S b.vel
          some (dot u w)
        else some dz
      let dz ← fdiv dz |dz|
      let dz ← fdiv dz len
      some (st.1 + ⟨0, 0, dz⟩, st.2 + 1)

/-- The method `Boid::zseparation` (main.cpp 173-196). -/
def zseparation (S : SqrtOp α) (self : Boid α) (neighbours : List (Boid α)) :
    Option (Vec3 α) := do
  let st ← neighbours.foldlM (zseparationBody S self) (0, 0)
  if st.2 = 0 then
    some 0
  else do
    let sum ← st.1.div (st.2 : α)
    self.steer S sum

/-- One pass through the loop body of `Boid::alignment` (main.cpp 224-231):
the state is `(sum, count)`. -/
def alignmentBody (S : SqrtOp α) (self : Boid α) (st : Vec3 α × Nat) (b : Boid α) :
    Vec3 α × Nat :=
  if b.addr = self.addr then st
  else if b.team ≠ self.team then st
  else
    let d := self.pos - b.pos
    let dist := length S d
    if dist > 50 then st
    else (st.1 + b.vel, st.2 + 1)

/-- The method `Boid::alignment` (main.cpp 219-237). -/
def alignment (S : SqrtOp α) (self : Boid α) (neighbours : List (Boid α)) :
    Option (Vec3 α) :=
  let st := neighbours.foldl (alignmentBody S self) (0, 0)
  if st.2 = 0 then
    some 0
  else do
    let sum ← st.1.div (st.2 : α)
    self.steer S sum

/-- One pass through the loop body of `Boid::cohesion` (main.cpp 244-251):
the state is `(sum, count)`. -/
def cohesionBody (S : SqrtOp α) (self : Boid α) (st : Vec3 α × Nat) (b : Boid α) :
    Vec3 α × Nat :=
  if b.addr = self.addr then st
  else if b.team ≠ self.team then st
  else
    let d := self.pos - b.pos
    let len := length S d
    if len > 50 then st
    else (st.1 + b.pos, st.2 + 1)

/-- The method `Boid::cohesion` (main.cpp 239-257). -/
def cohesion (S : SqrtOp α) (self : Boid α) (neighbours : List (Boid α)) :
    Option (Vec3 α) :=
  let st := neighbours.foldl (cohesionBody S self) (0, 0)
  if st.2 = 0 then
    some 0
  else do
    let sum ← st.1.div (st.2 : α)
    self.seek S sum

/-- The acceleration accumulated by `Boid::update` (main.cpp 147-156), from
the neighbour list left by the radius-50 query and the cursor position. -/
def acc (S : SqrtOp α) (self : Boid α) (neighbours : List (Boid α)) (cursor_pos : Vec3 α) :
    Option (Vec3 α) := do
  let acc : Vec3 α := 0
  let acc := acc + (← self.separation S neighbours).scale (3 / 2)
  let acc := acc + (← self.alignment S neighbours).scale 1
  let acc := acc + (← self.cohesion S neighbours).scale 1
  let acc := acc + (← self.planehug S).scale 1
  let acc := acc + (← self.zseparation S neighbours).scale 1
  let acc := acc + (← self.seek S cursor_pos).scale 1
  some acc

/-- The method `Boid::update` (main.cpp 141-165): the integration step that
follows the accumulation of `acc`. -/
def update (S : SqrtOp α) (self : Boid α) (neighbours : List (Boid α)) (cursor_pos : Vec3 α)
    (dt : α) : Option (Boid α) := do
  let acc ← self.acc S neighbours cursor_pos
  let vel := self.vel + acc.scale dt
  let vel ← limit S vel self.maxspeed
  let pos := self.pos + vel.scale dt
  some { self with vel := vel, pos := pos }

/-- The three columns `(right, forward, up)` that `Boid::calc_rotation_matrix`
(main.cpp 271-282) stores in `m[0]`, `m[1]`, `m[2]`. -/
def calc_rotation_matrix (S : SqrtOp α) (self : Boid α) :
    Option (Vec3 α × Vec3 α × Vec3 α) := do
  let temp_up : Vec3 α := ⟨0, 0, 1⟩
  let forward ← normalize S (-self.vel)
  let right := cross forward temp_up
  let up := cross right forward
  some (right, forward, up)

end Boid

/-! ## The behaviours in the words of the specification -/

/-- Mean of a list of vectors: their sum divided by their number. -/
def mean (vs : List (Vec3 α)) : Vec3 α := vs.sum.scale (1 / (vs.length : α))

/-- The entries `n` of `N` other than `B` whose distance to `B` lies in
`(0.00001, 20]`, of any team (the neighbour filter of separation and of
z-separation). -/
def closeOthers (S : SqrtOp α) (B : Boid α) (N : List (Boid α)) : List (Boid α) :=
  N.filter fun n =>
    n.addr ≠ B.addr ∧ 1 / 100000 < length S (B.pos - n.pos) ∧ length S (B.pos - n.pos) ≤ 20

/-- The entries `n` of `N` other than `B` of the team of `B` and at distance
at most 50 from `B` (the neighbour filter of alignment and of cohesion). -/
def teamMates (S : SqrtOp α) (B : Boid α) (N : List (Boid α)) : List (Boid α) :=
  N.filter fun n =>
    n.addr ≠ B.addr ∧ n.team = B.team ∧ length S (B.pos - n.pos) ≤ 50

/-- The repulsion a neighbour `n` contributes to the separation of `B`:
`(B.pos - n.pos) / |B.pos - n.pos|^2`. -/
def repulsion (S : SqrtOp α) (B n : Boid α) : Vec3 α :=
  (B.pos - n.pos).scale (1 / length S (B.pos - n.pos) ^ 2)

/-! ## Scenarios -/

/-- The first boid of scenario S5: at the origin, at rest. -/
def s5Boid1 : Boid α := ⟨0, 0, 0, 40, 1, 0⟩

/-- The second boid of scenario S5: at `(5, 0, 0)`, at rest, same team. -/
def s5Boid2 : Boid α := ⟨1, ⟨5, 0, 0⟩, 0, 40, 1, 0⟩

/-- Boid A of scenario S6: team 0. -/
def s6BoidA : Boid α := ⟨0, 0, ⟨1, 0, 0⟩, 40, 1, 0⟩

/-- Boid B of scenario S6: team 0, five units from A. -/
def s6BoidB : Boid α := ⟨1, ⟨3, 4, 0⟩, ⟨0, 2, 0⟩, 40, 1, 0⟩

/-- Boid C of scenario S6: team 1, one unit from A. -/
def s6BoidC : Boid α := ⟨2, ⟨1, 0, 0⟩, ⟨5, 5, 5⟩, 40, 1, 1⟩

/-- The boid of scenario S4: at the origin, at rest, `maxspeed = 40`,
`maxforce = 1`. -/
def s4Boid : Boid α := ⟨0, 0, 0, 40, 1, 0⟩

/-- The cursor target of scenario S4. -/
def s4Target : Vec3 α := ⟨100, 0, 0⟩

/-- Two coplanar boids five units apart whose velocities are perpendicular:
the first, at the origin, flies along x. -/
def crossBoid1 : Boid α := ⟨0, 0, ⟨1, 0, 0⟩, 40, 1, 0⟩

/-- Two coplanar boids five units apart whose velocities are perpendicular:
the second, at `(5, 0, 0)`, flies along y. -/
def crossBoid2 : Boid α := ⟨1, ⟨5, 0, 0⟩, ⟨0, 1, 0⟩, 40, 1, 0⟩

/-- A boid that climbs: velocity `(3, 0, 4)`, neither zero nor parallel to
`(0, 0, 1)`. -/
def climbBoid : Boid α := ⟨0, 0, ⟨3, 0, 4⟩, 40, 1, 0⟩

/-- Consecutive calls of `Boid::update` on one boid with the same `dt`;
`inputs` lists, for each call in turn, the neighbour list its query finds and
the cursor position at that tick. -/
def Boid.updates (S : SqrtOp α) (dt : α) : List (List (Boid α) × Vec3 α) → Boid α →
    Option (Boid α)
  | [], b => some b
  | (N, c) :: rest, b => (b.update S N c dt).bind fun b1 => Boid.updates S dt rest b1

/-- Repeated ticks of a world that holds a single boid: `n` calls of
`Boid::update` with a fixed cursor and time step, each with the neighbour
list `[b]` (the radius-50 query around the boid finds the boid itself). -/
def runSingle (S : SqrtOp α) (c : Vec3 α) (dt : α) : Nat → Boid α → Option (Boid α)
  | 0, b => some b
  | n + 1, b => (runSingle S c dt n b).bind fun b1 => b1.update S [b1] c dt

/-! ## `class World` -/

/-- Modelled from the spec: `QuadTree::query(center, radius, out)`, whose
source (`quadtree.h`) is not among the sources.  By §4.1 and §8 of the
specification the result is the brute-force filter of the indexed objects
whose 2D position `qtree_position() = (pos.x, pos.y)` lies within `radius` of
`center`.  A body whose state has no value (`none`, a NaN position) lies
within no radius.  The order of the result is that of the body list. -/
def query (S : SqrtOp α) (bodies : List (Option (Boid α))) (cx cy radius : α) :
    List (Boid α) :=
  (bodies.filterMap id).filter fun b =>
    S.sqrt ((b.pos.x - cx) * (b.pos.x - cx) + (b.pos.y - cy) * (b.pos.y - cy)) ≤ radius

/-- The state of a `World`: the bodies in iteration order, and `dt`.  An entry
`none` is a body whose position and velocity have no value (NaN).  The
quadtree indexes exactly the bodies of the list (`add_body` inserts each body,
`qtree_update` follows each move), so it carries no state of its own. -/
structure World (α : Type) where
  /-- The bodies, in the order `for (Body *body : bodies)` visits them. -/
  bodies : List (Option (Boid α))
  /-- The time step of the tick. -/
  dt : α

/-- The call `body->update(*this)` (main.cpp 105 with 141-165) on one body,
given the bodies of the world at that moment: the body queries the index for
the bodies within 50 of `(pos.x, pos.y)` and steps.  A body without a value
stays without one: `vel += acc * dt`, `limit` and `pos += vel * dt` all keep
a NaN. -/
def bodyUpdate (S : SqrtOp α) (cursor_pos : Vec3 α) (dt : α) (bodies : List (Option (Boid α)))
    (body : Option (Boid α)) : Option (Boid α) :=
  body.bind fun b => b.update S (query S bodies b.pos.x b.pos.y 50) cursor_pos dt

namespace World

/-- One pass through the loop of `World::update` (main.cpp 104-105): the
body at position `i` of the list is updated in place. -/
def updateBody (S : SqrtOp α) (cursor_pos : Vec3 α) (w : World α) (i : Nat) : World α :=
  match w.bodies[i]? with
  | none => w
  | some body =>
    { w with bodies := w.bodies.set i (bodyUpdate S cursor_pos w.dt w.bodies body) }

/-- The method `World::update` (main.cpp 103-106): the loop over all the
bodies, in list order, with no early exit. -/
def update (S : SqrtOp α) (w : World α) (cursor_pos : Vec3 α) : World α :=
  (List.range w.bodies.length).foldl (updateBody S cursor_pos) w

end World

/-- The tick as a left fold of the single-body update, in the words of the
specification: `done` holds the bodies already updated, the second list the
bodies still to update; the next body queries the updated bodies before it
and the not yet updated ones from itself on. -/
def sweep (S : SqrtOp α) (cursor_pos : Vec3 α) (dt : α) :
    List (Option (Boid α)) → List (Option (Boid α)) → List (Option (Boid α))
  | done, [] => done
  | done, body :: rest =>
    sweep S cursor_pos dt (done ++ [bodyUpdate S cursor_pos dt (done ++ body :: rest) body]) rest

/-- The world of scenario S5 with `dt = 0`. -/
def stillWorld : World α := ⟨[some s5Boid1, some s5Boid2], 0⟩

/-- The world of scenario S4 with a negative time step, `dt = -0.1`. -/
def retroWorld : World α := ⟨[some s4Boid], -(1 / 10)⟩

end Model

/-! ## Square roots -/

section SqrtLemmas

variable {α : Type} [LinearOrderedField α] (S : SqrtOp α)

theorem SqrtOp.sqrt_mul_self {a : α} (ha : 0 ≤ a) : S.sqrt (a * a) = a :=
  (mul_self_inj (S.sqrt_nonneg _) ha).1 (S.mul_self_sqrt _ (mul_self_nonneg a))

theorem SqrtOp.sqrt_mul_self_abs (a : α) : S.sqrt (a * a) = |a| := by
  rw [← abs_mul_abs_self a]
  exact S.sqrt_mul_self (abs_nonneg a)

theorem SqrtOp.sqrt_zero : S.sqrt 0 = 0 := by
  simpa using S.sqrt_mul_self (le_refl (0 : α))

theorem SqrtOp.sqrt_eq_zero_iff {x : α} (hx : 0 ≤ x) : S.sqrt x = 0 ↔ x = 0 := by
  constructor
  · intro h
    have := S.mul_self_sqrt x hx
    rw [h] at this
    simpa using this.symm
  · rintro rfl
    exact S.sqrt_zero

theorem SqrtOp.sqrt_le_sqrt {x y : α} (hx : 0 ≤ x) (hxy : x ≤ y) : S.sqrt x ≤ S.sqrt y := by
  rw [mul_self_le_mul_self_iff (S.sqrt_nonneg x) (S.sqrt_nonneg y),
    S.mul_self_sqrt x hx, S.mul_self_sqrt y (hx.trans hxy)]
  exact hxy

theorem SqrtOp.sqrt_eq_of_mul_self {x a : α} (ha : 0 ≤ a) (h : a * a = x) : S.sqrt x = a := by
  subst h
  exact S.sqrt_mul_self ha

end SqrtLemmas

/-! ## Vector algebra -/

namespace Vec3

variable {α : Type} [LinearOrderedField α] (S : SqrtOp α)

@[simp] theorem zero_x : (0 : Vec3 α).x = 0 := rfl
@[simp] theorem zero_y : (0 : Vec3 α).y = 0 := rfl
@[simp] theorem zero_z : (0 : Vec3 α).z = 0 := rfl
@[simp] theorem add_x (a b : Vec3 α) : (a + b).x = a.x + b.x := rfl
@[simp] theorem add_y (a b : Vec3 α) : (a + b).y = a.y + b.y := rfl
@[simp] theorem add_z (a b : Vec3 α) : (a + b).z = a.z + b.z := rfl
@[simp] theorem sub_x (a b : Vec3 α) : (a - b).x = a.x - b.x := rfl
@[simp] theorem sub_y (a b : Vec3 α) : (a - b).y = a.y - b.y := rfl
@[simp] theorem sub_z (a b : Vec3 α) : (a - b).z = a.z - b.z := rfl
@[simp] theorem neg_x (a : Vec3 α) : (-a).x = -a.x := rfl
@[simp] theorem neg_y (a : Vec3 α) : (-a).y = -a.y := rfl
@[simp] theorem neg_z (a : Vec3 α) : (-a).z = -a.z := rfl
@[simp] theorem scale_x (a : Vec3 α) (s : α) : (a.scale s).x = a.x * s := rfl
@[simp] theorem scale_y (a : Vec3 α) (s : α) : (a.scale s).y = a.y * s := rfl
@[simp] theorem scale_z (a : Vec3 α) (s : α) : (a.scale s).z = a.z * s := rfl

theorem zero_add_vec (a : Vec3 α) : 0 + a = a := by ext <;> simp

theorem add_zero_vec (a : Vec3 α) : a + 0 = a := by ext <;> simp

theorem add_assoc_vec (a b c : Vec3 α) : a + b + c = a + (b + c) := by
  ext <;> simp [add_assoc]

theorem scale_one (a : Vec3 α) : a.scale 1 = a := by ext <;> simp

theorem scale_scale (a : Vec3 α) (s t : α) : (a.scale s).scale t = a.scale (s * t) := by
  ext <;> simp [mul_assoc]

theorem sub_self_vec (a : Vec3 α) : a - a = 0 := by ext <;> simp

theorem dot_self_nonneg (v : Vec3 α) : 0 ≤ dot v v := by
  unfold dot
  nlinarith [mul_self_nonneg v.x, mul_self_nonneg v.y, mul_self_nonneg v.z]

theorem dot_self_eq_zero_iff (v : Vec3 α) : dot v v = 0 ↔ v = 0 := by
  constructor
  · intro h
    unfold dot at h
    have hx : v.x * v.x = 0 := by
      nlinarith [mul_self_nonneg v.x, mul_self_nonneg v.y, mul_self_nonneg v.z]
    have hy : v.y * v.y = 0 := by
      nlinarith [mul_self_nonneg v.x, mul_self_nonneg v.y, mul_self_nonneg v.z]
    have hz : v.z * v.z = 0 := by
      nlinarith [mul_self_nonneg v.x, mul_self_nonneg v.y, mul_self_nonneg v.z]
    ext
    · simpa using hx
    · simpa using hy
    · simpa using hz
  · rintro rfl
    simp [dot]

theorem length_nonneg (v : Vec3 α) : 0 ≤ length S v := S.sqrt_nonneg _

theorem length_mul_self (v : Vec3 α) : length S v * length S v = dot v v :=
  S.mul_self_sqrt _ (dot_self_nonneg v)

theorem length_eq_zero_iff (v : Vec3 α) : length S v = 0 ↔ v = 0 := by
  unfold length
  rw [S.sqrt_eq_zero_iff (dot_self_nonneg v), dot_self_eq_zero_iff]

theorem length_zero : length S (0 : Vec3 α) = 0 := (length_eq_zero_iff S 0).2 rfl

theorem length_scale (v : Vec3 α) (s : α) : length S (v.scale s) = |s| * length S v := by
  unfold length
  apply S.sqrt_eq_of_mul_self (mul_nonneg (abs_nonneg s) (S.sqrt_nonneg _))
  have h := S.mul_self_sqrt _ (dot_self_nonneg v)
  have hs : |s| * |s| = s * s := abs_mul_abs_self s
  calc |s| * S.sqrt (dot v v) * (|s| * S.sqrt (dot v v))
      = (|s| * |s|) * (S.sqrt (dot v v) * S.sqrt (dot v v)) := by ring
    _ = (s * s) * dot v v := by rw [h, hs]
    _ = dot (v.scale s) (v.scale s) := by simp only [dot, scale]; ring

theorem normalize_eq (v : Vec3 α) :
    normalize S v = if length S v = 0 then none else some (v.scale (1 / length S v)) := by
  unfold normalize inversesqrt fdiv length
  split <;> rfl

theorem normalize_of_ne (v : Vec3 α) (h : length S v ≠ 0) :
    normalize S v = some (v.scale (1 / length S v)) := by
  rw [normalize_eq, if_neg h]

theorem div_of_ne (v : Vec3 α) {s : α} (h : s ≠ 0) : v.div s = some (v.scale (1 / s)) := by
  unfold div
  rw [if_neg h]
  congr 1
  ext <;> simp [div_eq_mul_inv]

theorem dot_mul_self_le (a b : Vec3 α) : dot a b * dot a b ≤ dot a a * dot b b := by
  unfold dot
  nlinarith [mul_self_nonneg (a.x * b.y - a.y * b.x), mul_self_nonneg (a.y * b.z - a.z * b.y),
    mul_self_nonneg (a.z * b.x - a.x * b.z)]

theorem dot_le_length_mul (a b : Vec3 α) : dot a b ≤ length S a * length S b := by
  by_contra h
  have h1 : length S a * length S b < dot a b := not_le.1 h
  have h0 : 0 ≤ length S a * length S b := mul_nonneg (length_nonneg S a) (length_nonneg S b)
  have h2 := mul_self_lt_mul_self h0 h1
  have h3 : length S a * length S b * (length S a * length S b) = dot a a * dot b b := by
    rw [← length_mul_self S a, ← length_mul_self S b]
    ring
  rw [h3] at h2
  exact absurd (dot_mul_self_le a b) (not_le.2 h2)

theorem length_add_le (a b : Vec3 α) : length S (a + b) ≤ length S a + length S b := by
  have h0 : 0 ≤ length S a + length S b := add_nonneg (length_nonneg S a) (length_nonneg S b)
  rw [mul_self_le_mul_self_iff (length_nonneg S _) h0, length_mul_self]
  have hab : dot (a + b) (a + b) = dot a a + 2 * dot a b + dot b b := by
    simp only [dot, add_x, add_y, add_z]
    ring
  have hc := dot_le_length_mul S a b
  have hl : (length S a + length S b) * (length S a + length S b)
      = dot a a + 2 * (length S a * length S b) + dot b b := by
    rw [← length_mul_self S a, ← length_mul_self S b]
    ring
  rw [hab, hl]
  linarith

theorem abs_x_le_length (v : Vec3 α) : |v.x| ≤ length S v := by
  rw [← S.sqrt_mul_self_abs v.x]
  apply S.sqrt_le_sqrt (mul_self_nonneg _)
  unfold dot
  nlinarith [mul_self_nonneg v.y, mul_self_nonneg v.z]

end Vec3

/-! ## `limit`, `steer`, `seek` -/

section Steering

variable {α : Type} [LinearOrderedField α] (S : SqrtOp α)

theorem limit_eq (v : Vec3 α) (L : α) :
    limit S v L =
      if length S v > L then (fdiv L (length S v)).map fun q => v.scale q else some v := by
  unfold limit
  split
  · rw [Vec3.normalize_eq]
    unfold fdiv
    by_cases h0 : length S v = 0
    · simp [h0]
    · simp only [h0, if_false, Option.map_some']
      congr 1
      ext <;> simp <;> ring
  · rfl

theorem limit_of_le (v : Vec3 α) {L : α} (h : length S v ≤ L) : limit S v L = some v := by
  unfold limit
  rw [if_neg (not_lt.2 h)]

theorem limit_of_gt (v : Vec3 α) {L : α} (h0 : 0 ≤ L) (h : L < length S v) :
    limit S v L = some (v.scale (L / length S v)) := by
  have hne : length S v ≠ 0 := ne_of_gt (lt_of_le_of_lt h0 h)
  rw [limit_eq, if_pos h]
  simp [fdiv, hne]

theorem Boid.steer_eq (b : Boid α) (dir : Vec3 α) :
    b.steer S dir =
      if length S dir < 1 / 1000000 then some 0
      else limit S (dir.scale (b.maxspeed / length S dir) - b.vel) b.maxforce := by
  simp only [Boid.steer]
  split_ifs with h
  · rfl
  · have hne : length S dir ≠ 0 := by
      intro h0
      apply h
      rw [h0]
      norm_num
    simp [fdiv, hne]

theorem Boid.planehug_eq_seek (b : Boid α) :
    b.planehug S = b.seek S ⟨b.pos.x, b.pos.y, 0⟩ := rfl

theorem Boid.acc_eq (b : Boid α) (N : List (Boid α)) (c : Vec3 α)
    {s al co ph zs sk : Vec3 α}
    (hs : b.separation S N = some s) (hal : b.alignment S N = some al)
    (hco : b.cohesion S N = some co) (hph : b.planehug S = some ph)
    (hzs : b.zseparation S N = some zs) (hsk : b.seek S c = some sk) :
    b.acc S N c = some (s.scale (3 / 2) + al + co + ph + zs + sk) := by
  simp only [Boid.acc, hs, hal, hco, hph, hzs, hsk, scale_one, bind, Option.bind, pure,
    zero_add_vec]

theorem Boid.update_eq (b : Boid α) (N : List (Boid α)) (c : Vec3 α) (dt : α)
    {a v : Vec3 α} (ha : b.acc S N c = some a)
    (hv : limit S (b.vel + a.scale dt) b.maxspeed = some v) :
    b.update S N c dt =
      some ⟨b.addr, b.pos + v.scale dt, v, b.maxspeed, b.maxforce, b.team⟩ := by
  simp [Boid.update, ha, hv]

/-! ### Bounds -/

theorem limit_isSome (v : Vec3 α) {L : α} (hL : 0 ≤ L) : ∃ w, limit S v L = some w := by
  by_cases h : L < length S v
  · exact ⟨_, limit_of_gt S v hL h⟩
  · exact ⟨_, limit_of_le S v (not_lt.1 h)⟩

theorem length_limit_le (v w : Vec3 α) {L : α} (hL : 0 ≤ L) (h : limit S v L = some w) :
    length S w ≤ L := by
  by_cases hgt : L < length S v
  · rw [limit_of_gt S v hL hgt] at h
    have hw : w = v.scale (L / length S v) := (Option.some.inj h).symm
    have hpos : 0 < length S v := lt_of_le_of_lt hL hgt
    rw [hw, Vec3.length_scale, abs_of_nonneg (div_nonneg hL hpos.le),
      div_mul_cancel₀ _ (ne_of_gt hpos)]
  · rw [limit_of_le S v (not_lt.1 hgt)] at h
    have hw : w = v := (Option.some.inj h).symm
    rw [hw]
    exact not_lt.1 hgt

theorem Boid.update_some (b b1 : Boid α) (N : List (Boid α)) (c : Vec3 α) (dt : α)
    (h : b.update S N c dt = some b1) :
    ∃ a, b.acc S N c = some a ∧ limit S (b.vel + a.scale dt) b.maxspeed = some b1.vel ∧
      b1.pos = b.pos + b1.vel.scale dt ∧ b1.addr = b.addr ∧ b1.maxspeed = b.maxspeed ∧
      b1.maxforce = b.maxforce ∧ b1.team = b.team := by
  unfold Boid.update at h
  cases ha : b.acc S N c with
  | none => simp [ha] at h
  | some a =>
    cases hv : limit S (b.vel + a.scale dt) b.maxspeed with
    | none => simp [ha, hv] at h
    | some v =>
      simp only [ha, hv, bind, Option.bind, Option.some.injEq] at h
      subst h
      exact ⟨a, rfl, hv, rfl, rfl, rfl, rfl, rfl⟩

theorem Boid.update_bounds (b b1 : Boid α) (N : List (Boid α)) (c : Vec3 α) (dt : α)
    (hms : 0 ≤ b.maxspeed) (hdt : 0 ≤ dt) (h : b.update S N c dt = some b1) :
    length S b1.vel ≤ b.maxspeed ∧ length S (b1.pos - b.pos) ≤ b.maxspeed * dt := by
  obtain ⟨a, _, hv, hp, _⟩ := b.update_some S b1 N c dt h
  have hvel := length_limit_le S _ _ hms hv
  refine ⟨hvel, ?_⟩
  have hd : b1.pos - b.pos = b1.vel.scale dt := by
    rw [hp]
    ext <;> simp
  rw [hd, Vec3.length_scale, abs_of_nonneg hdt, mul_comm]
  exact mul_le_mul_of_nonneg_right hvel hdt

theorem Boid.updates_bound (dt : α) (hdt : 0 ≤ dt) (inputs : List (List (Boid α) × Vec3 α)) :
    ∀ b b2 : Boid α, 0 ≤ b.maxspeed → Boid.updates S dt inputs b = some b2 →
      b2.maxspeed = b.maxspeed ∧
        length S (b2.pos - b.pos) ≤ b.maxspeed * (inputs.length : α) * dt := by
  induction inputs with
  | nil =>
    intro b b2 _ h
    simp only [Boid.updates, Option.some.injEq] at h
    subst h
    simp [Vec3.sub_self_vec, Vec3.length_zero]
  | cons i rest ih =>
    intro b b2 hms h
    obtain ⟨N, c⟩ := i
    simp only [Boid.updates] at h
    cases h1 : b.update S N c dt with
    | none => simp [h1] at h
    | some b1 =>
      simp only [h1, Option.some_bind] at h
      obtain ⟨_, _, _, _, _, hms1, _⟩ := b.update_some S b1 N c dt h1
      have hb := (b.update_bounds S b1 N c dt hms hdt h1).2
      obtain ⟨hms2, hr⟩ := ih b1 b2 (by rw [hms1]; exact hms) h
      refine ⟨by rw [hms2, hms1], ?_⟩
      have hsplit : b2.pos - b.pos = (b2.pos - b1.pos) + (b1.pos - b.pos) := by
        ext <;> simp
      rw [hsplit]
      refine (Vec3.length_add_le S _ _).trans ?_
      rw [hms1] at hr
      simp only [List.length_cons, Nat.cast_add, Nat.cast_one]
      linarith

/-! ### Motion along the x axis -/

theorem Vec3.length_x (a : α) : length S ⟨a, 0, 0⟩ = |a| := by
  have h : dot (⟨a, 0, 0⟩ : Vec3 α) ⟨a, 0, 0⟩ = a * a := by simp [dot]
  unfold length
  rw [h]
  exact S.sqrt_mul_self_abs a

theorem limit_x_of_gt {a f : α} (hf : 0 ≤ f) (h : f < a) :
    limit S ⟨a, 0, 0⟩ f = some ⟨f, 0, 0⟩ := by
  have ha : 0 < a := lt_of_le_of_lt hf h
  have hl : length S (⟨a, 0, 0⟩ : Vec3 α) = a := by rw [Vec3.length_x, abs_of_pos ha]
  rw [limit_of_gt S _ hf (by rw [hl]; exact h), hl]
  congr 1
  ext <;> simp [scale]
  field_simp

theorem limit_x_of_lt {a f : α} (hf : 0 ≤ f) (h : a < -f) :
    limit S ⟨a, 0, 0⟩ f = some ⟨-f, 0, 0⟩ := by
  have ha : a < 0 := by linarith
  have hl : length S (⟨a, 0, 0⟩ : Vec3 α) = -a := by rw [Vec3.length_x, abs_of_neg ha]
  rw [limit_of_gt S _ hf (by rw [hl]; linarith), hl]
  congr 1
  have hne : a ≠ 0 := ne_of_lt ha
  ext <;> simp [scale]
  rw [div_neg, mul_neg, mul_div_cancel₀ _ hne]

theorem limit_x_of_abs_le {a f : α} (h : |a| ≤ f) :
    limit S ⟨a, 0, 0⟩ f = some ⟨a, 0, 0⟩ :=
  limit_of_le S _ (by rw [Vec3.length_x]; exact h)

theorem Boid.steer_zero (b : Boid α) : b.steer S 0 = some 0 := by
  rw [Boid.steer_eq, Vec3.length_zero, if_pos (by norm_num)]

theorem Boid.steer_x_of_pos (b : Boid α) {v d : α} (hv : b.vel = ⟨v, 0, 0⟩)
    (hd : 1 / 1000000 ≤ d) :
    b.steer S ⟨d, 0, 0⟩ = limit S ⟨b.maxspeed - v, 0, 0⟩ b.maxforce := by
  have hd0 : 0 < d := lt_of_lt_of_le (by norm_num) hd
  rw [Boid.steer_eq, Vec3.length_x, abs_of_pos hd0, if_neg (not_lt.2 hd), hv]
  congr 1
  ext <;> simp [scale]
  field_simp

theorem Boid.steer_x_of_neg (b : Boid α) {v d : α} (hv : b.vel = ⟨v, 0, 0⟩)
    (hd : d ≤ -(1 / 1000000)) :
    b.steer S ⟨d, 0, 0⟩ = limit S ⟨-b.maxspeed - v, 0, 0⟩ b.maxforce := by
  have hd0 : d < 0 := lt_of_le_of_lt hd (by norm_num)
  have hne : d ≠ 0 := ne_of_lt hd0
  rw [Boid.steer_eq, Vec3.length_x, abs_of_neg hd0, if_neg (not_lt.2 (by linarith)), hv]
  congr 1
  ext <;> simp [scale]
  rw [div_neg, mul_neg, mul_div_cancel₀ _ hne]

/-! ### A boid whose only neighbour is itself -/

theorem Boid.separation_self (b : Boid α) : b.separation S [b] = some 0 := by
  simp [Boid.separation, Boid.separationBody]

theorem Boid.zseparation_self (b : Boid α) : b.zseparation S [b] = some 0 := by
  simp [Boid.zseparation, Boid.zseparationBody]

theorem Boid.alignment_self (b : Boid α) : b.alignment S [b] = some 0 := by
  simp [Boid.alignment, Boid.alignmentBody]

theorem Boid.cohesion_self (b : Boid α) : b.cohesion S [b] = some 0 := by
  simp [Boid.cohesion, Boid.cohesionBody]

theorem Boid.planehug_of_z (b : Boid α) (hz : b.pos.z = 0) : b.planehug S = some 0 := by
  have h : ({ b.pos with z := 0 } : Vec3 α) - b.pos = 0 := by
    ext <;> simp [hz]
  unfold Boid.planehug
  simp only [h]
  exact b.steer_zero S

theorem Boid.acc_self (b : Boid α) (c : Vec3 α) (hz : b.pos.z = 0) {sk : Vec3 α}
    (hsk : b.seek S c = some sk) : b.acc S [b] c = some sk := by
  rw [b.acc_eq S [b] c (b.separation_self S) (b.alignment_self S) (b.cohesion_self S)
    (b.planehug_of_z S hz) (b.zseparation_self S) hsk]
  congr 1
  ext <;> simp [scale]

/-- One tick of a lone boid on the x axis, left of the target of scenario S4
and slower than 39: the acceleration is `(1, 0, 0)`. -/
theorem Boid.tick_toward (b : Boid α) {x v : α} (hp : b.pos = ⟨x, 0, 0⟩)
    (hv : b.vel = ⟨v, 0, 0⟩) (hms : b.maxspeed = 40) (hmf : b.maxforce = 1)
    (hx : x + 1 / 1000000 ≤ 100) (hv1 : v < 39) (hv2 : -40 ≤ v) :
    b.acc S [b] s4Target = some ⟨1, 0, 0⟩ ∧
      b.update S [b] s4Target (1 / 10) =
        some ⟨b.addr, ⟨x + (v + 1 / 10) / 10, 0, 0⟩, ⟨v + 1 / 10, 0, 0⟩, 40, 1, b.team⟩ := by
  have hsk : b.seek S s4Target = some ⟨1, 0, 0⟩ := by
    have hd : (s4Target : Vec3 α) - b.pos = ⟨100 - x, 0, 0⟩ := by
      rw [hp]; ext <;> simp [s4Target]
    unfold Boid.seek
    rw [hd, b.steer_x_of_pos S hv (by linarith), hms, hmf]
    exact limit_x_of_gt S (by norm_num) (by linarith)
  have ha := b.acc_self S s4Target (by rw [hp]) hsk
  refine ⟨ha, ?_⟩
  have hvel : b.vel + (⟨1, 0, 0⟩ : Vec3 α).scale (1 / 10) = ⟨v + 1 / 10, 0, 0⟩ := by
    rw [hv]; ext <;> simp [scale]
  have hl : limit S (b.vel + (⟨1, 0, 0⟩ : Vec3 α).scale (1 / 10)) b.maxspeed
      = some ⟨v + 1 / 10, 0, 0⟩ := by
    rw [hvel, hms]
    apply limit_x_of_abs_le
    rw [abs_le]
    constructor <;> linarith
  rw [b.update_eq S [b] s4Target (1 / 10) ha hl, hp, hms, hmf]
  congr 2
  ext <;> simp [scale]
  ring

/-- One tick of a lone boid on the x axis, right of the target of scenario
S4 and faster than -39: the acceleration is `(-1, 0, 0)`. -/
theorem Boid.tick_away (b : Boid α) {x v : α} (hp : b.pos = ⟨x, 0, 0⟩)
    (hv : b.vel = ⟨v, 0, 0⟩) (hms : b.maxspeed = 40) (hmf : b.maxforce = 1)
    (hx : 100 + 1 / 1000000 ≤ x) (hv1 : -39 < v) (hv2 : v ≤ 40) :
    b.acc S [b] s4Target = some ⟨-1, 0, 0⟩ ∧
      b.update S [b] s4Target (1 / 10) =
        some ⟨b.addr, ⟨x + (v - 1 / 10) / 10, 0, 0⟩, ⟨v - 1 / 10, 0, 0⟩, 40, 1, b.team⟩ := by
  have hsk : b.seek S s4Target = some ⟨-1, 0, 0⟩ := by
    have hd : (s4Target : Vec3 α) - b.pos = ⟨100 - x, 0, 0⟩ := by
      rw [hp]; ext <;> simp [s4Target]
    unfold Boid.seek
    rw [hd, b.steer_x_of_neg S hv (by linarith), hms, hmf]
    exact limit_x_of_lt S (by norm_num) (by linarith)
  have ha := b.acc_self S s4Target (by rw [hp]) hsk
  refine ⟨ha, ?_⟩
  have hvel : b.vel + (⟨-1, 0, 0⟩ : Vec3 α).scale (1 / 10) = ⟨v - 1 / 10, 0, 0⟩ := by
    rw [hv]; ext <;> simp [scale]
    ring
  have hl : limit S (b.vel + (⟨-1, 0, 0⟩ : Vec3 α).scale (1 / 10)) b.maxspeed
      = some ⟨v - 1 / 10, 0, 0⟩ := by
    rw [hvel, hms]
    apply limit_x_of_abs_le
    rw [abs_le]
    constructor <;> linarith
  rw [b.update_eq S [b] s4Target (1 / 10) ha hl, hp, hms, hmf]
  congr 2
  ext <;> simp [scale]
  ring

/-! ### A lone boid never leaves the field -/

theorem Boid.steer_isSome (b : Boid α) (hmf : 0 ≤ b.maxforce) (dir : Vec3 α) :
    ∃ w, b.steer S dir = some w := by
  rw [Boid.steer_eq]
  split_ifs
  · exact ⟨0, rfl⟩
  · exact limit_isSome S _ hmf

theorem Boid.update_self_isSome (b : Boid α) (c : Vec3 α) (dt : α) (hmf : 0 ≤ b.maxforce)
    (hms : 0 ≤ b.maxspeed) : ∃ b1, b.update S [b] c dt = some b1 := by
  obtain ⟨ph, hph⟩ : ∃ w, b.planehug S = some w := b.steer_isSome S hmf _
  obtain ⟨sk, hsk⟩ : ∃ w, b.seek S c = some w := b.steer_isSome S hmf _
  have ha := b.acc_eq S [b] c (b.separation_self S) (b.alignment_self S) (b.cohesion_self S)
    hph (b.zseparation_self S) hsk
  obtain ⟨v, hv⟩ := limit_isSome S (b.vel + ((0 : Vec3 α).scale (3 / 2) + 0 + 0 + ph + 0
    + sk).scale dt) hms
  exact ⟨_, b.update_eq S [b] c dt ha hv⟩

theorem runSingle_total (c : Vec3 α) (dt : α) (hdt : 0 ≤ dt) (b : Boid α)
    (hmf : 0 ≤ b.maxforce) (hms : 0 ≤ b.maxspeed) (n : Nat) :
    ∃ b1, runSingle S c dt n b = some b1 ∧ b1.maxspeed = b.maxspeed ∧
      b1.maxforce = b.maxforce ∧ length S (b1.pos - b.pos) ≤ b.maxspeed * (n : α) * dt := by
  induction n with
  | zero =>
    refine ⟨b, rfl, rfl, rfl, ?_⟩
    simp [Vec3.sub_self_vec, Vec3.length_zero]
  | succ n ih =>
    obtain ⟨b1, hrun, hms1, hmf1, hd⟩ := ih
    obtain ⟨b2, hupd⟩ := b1.update_self_isSome S c dt (by rw [hmf1]; exact hmf)
      (by rw [hms1]; exact hms)
    obtain ⟨_, _, _, _, _, hms2, hmf2, _⟩ := b1.update_some S b2 [b1] c dt hupd
    have hb := (b1.update_bounds S b2 [b1] c dt (by rw [hms1]; exact hms) hdt hupd).2
    refine ⟨b2, ?_, by rw [hms2, hms1], by rw [hmf2, hmf1], ?_⟩
    · simp only [runSingle, hrun, Option.some_bind, hupd]
    · have hsplit : b2.pos - b.pos = (b2.pos - b1.pos) + (b1.pos - b.pos) := by
        ext <;> simp
      rw [hsplit]
      refine (Vec3.length_add_le S _ _).trans ?_
      rw [hms1] at hb
      simp only [Nat.cast_add, Nat.cast_one]
      linarith

/-! ### Scenario S4, tick by tick -/

theorem runSingle_succ (c : Vec3 α) (dt : α) (n : Nat) (b : Boid α) :
    runSingle S c dt (n + 1) b =
      (runSingle S c dt n b).bind fun b1 => b1.update S [b1] c dt := rfl

theorem s4_state (n : Nat) (hn : n ≤ 141) :
    runSingle S s4Target (1 / 10) n (s4Boid : Boid α) =
      some ⟨0, ⟨(n : α) * (n + 1) / 200, 0, 0⟩, ⟨(n : α) / 10, 0, 0⟩, 40, 1, 0⟩ := by
  induction n with
  | zero => simp [runSingle, s4Boid]; rfl
  | succ n ih =>
    have hn1 : n ≤ 140 := Nat.le_of_succ_le_succ hn
    have hc : (n : α) ≤ 140 := by exact_mod_cast hn1
    have h0 : (0 : α) ≤ n := Nat.cast_nonneg n
    have hstep := (Boid.tick_toward S
      (⟨0, ⟨(n : α) * (n + 1) / 200, 0, 0⟩, ⟨(n : α) / 10, 0, 0⟩, 40, 1, 0⟩ : Boid α)
      rfl rfl rfl rfl (by nlinarith) (by linarith) (by linarith)).2
    simp only [runSingle, ih (Nat.le_of_succ_le hn), Option.some_bind, hstep]
    congr 3
    · push_cast
      ring
    · push_cast
      ring

theorem s4_state_142 :
    runSingle S s4Target (1 / 10) 142 (s4Boid : Boid α) =
      some ⟨0, ⟨10151 / 100, 0, 0⟩, ⟨14, 0, 0⟩, 40, 1, 0⟩ := by
  have h141 := s4_state S 141 (le_refl _)
  have hstep := (Boid.tick_away S
    (⟨0, ⟨((141 : Nat) : α) * ((141 : Nat) + 1) / 200, 0, 0⟩, ⟨((141 : Nat) : α) / 10, 0, 0⟩,
      40, 1, 0⟩ : Boid α)
    rfl rfl rfl rfl (by norm_num) (by norm_num) (by norm_num)).2
  rw [show (142 : Nat) = 141 + 1 from rfl, runSingle_succ, h141, Option.some_bind, hstep]
  norm_num

theorem s4_distance (x : α) :
    length S ((⟨x, 0, 0⟩ : Vec3 α) - s4Target) = |x - 100| := by
  have h : (⟨x, 0, 0⟩ : Vec3 α) - s4Target = ⟨x - 100, 0, 0⟩ := by
    ext <;> simp [s4Target]
  rw [h, Vec3.length_x]

end Steering

/-! ## The neighbour loops -/

section Loops

variable {α : Type} [LinearOrderedField α] (S : SqrtOp α)

theorem foldlM_some {σ β : Type} (f : σ → β → σ) (l : List β) (st : σ) :
    l.foldlM (fun s b => some (f s b)) st = some (l.foldl f st) := by
  induction l generalizing st with
  | nil => rfl
  | cons b l ih => simp [List.foldlM_cons, ih]

theorem sum_fold (g : Boid α → Vec3 α) (p : Boid α → Bool) (N : List (Boid α))
    (st : Vec3 α × Nat) :
    N.foldl (fun s b => if p b then (s.1 + g b, s.2 + 1) else s) st =
      (st.1 + ((N.filter p).map g).sum, st.2 + (N.filter p).length) := by
  induction N generalizing st with
  | nil => simp [add_zero_vec]
  | cons b N ih =>
    rw [List.foldl_cons, ih]
    by_cases h : p b
    · simp [h, add_assoc_vec, Nat.add_assoc, Nat.add_comm]
    · simp [h]

theorem Boid.separationBody_eq (B : Boid α) (st : Vec3 α × Nat) (b : Boid α) :
    B.separationBody S st b =
      some (if decide (b.addr ≠ B.addr ∧ 1 / 100000 < length S (B.pos - b.pos) ∧
          length S (B.pos - b.pos) ≤ 20)
        then (st.1 + repulsion S B b, st.2 + 1) else st) := by
  unfold Boid.separationBody
  by_cases ha : b.addr = B.addr
  · simp [ha]
  · by_cases hr : length S (B.pos - b.pos) > 20 ∨ length S (B.pos - b.pos) ≤ 1 / 100000
    · have hn : ¬ (1 / 100000 < length S (B.pos - b.pos) ∧ length S (B.pos - b.pos) ≤ 20) := by
        rintro ⟨h1, h2⟩
        rcases hr with h | h
        · exact absurd h2 (not_le.2 h)
        · exact absurd h1 (not_lt.2 h)
      simp only [ha, if_false, hr, if_true, ne_eq, not_false_eq_true, true_and, hn,
        decide_False, Bool.false_eq_true]
    · have hp : 1 / 100000 < length S (B.pos - b.pos) ∧ length S (B.pos - b.pos) ≤ 20 := by
        constructor
        · exact not_le.1 fun h => hr (Or.inr h)
        · exact not_lt.1 fun h => hr (Or.inl h)
      have hne : length S (B.pos - b.pos) ≠ 0 :=
        ne_of_gt (lt_trans (by norm_num) hp.1)
      simp only [ha, if_false, hr, ne_eq, not_false_eq_true, true_and, hp, and_self,
        decide_True, if_true, Vec3.normalize_of_ne S _ hne, Vec3.div_of_ne _ hne,
        bind, Option.bind, repulsion, Vec3.scale_scale]
      rw [one_div_mul_one_div, sq]

theorem Boid.separation_eq (B : Boid α) (N : List (Boid α)) :
    B.separation S N =
      if (closeOthers S B N).length = 0 then some 0
      else B.steer S (mean ((closeOthers S B N).map (repulsion S B))) := by
  have hbody : B.separationBody S = fun st b =>
      some (if decide (b.addr ≠ B.addr ∧ 1 / 100000 < length S (B.pos - b.pos) ∧
          length S (B.pos - b.pos) ≤ 20)
        then (st.1 + repulsion S B b, st.2 + 1) else st) := by
    funext st b
    exact B.separationBody_eq S st b
  unfold Boid.separation closeOthers
  rw [hbody, foldlM_some, sum_fold]
  simp only [bind, Option.bind, Vec3.zero_add_vec, Nat.zero_add]
  split_ifs with h
  · rfl
  · have hk : ((List.filter (fun b => decide (b.addr ≠ B.addr ∧
        1 / 100000 < length S (B.pos - b.pos) ∧ length S (B.pos - b.pos) ≤ 20)) N).length : α)
        ≠ 0 := Nat.cast_ne_zero.2 h
    rw [Vec3.div_of_ne _ hk]
    simp [mean]

theorem Boid.alignmentBody_eq (B : Boid α) :
    B.alignmentBody S = fun st b =>
      if decide (b.addr ≠ B.addr ∧ b.team = B.team ∧ length S (B.pos - b.pos) ≤ 50)
        then (st.1 + b.vel, st.2 + 1) else st := by
  funext st b
  unfold Boid.alignmentBody
  by_cases ha : b.addr = B.addr
  · simp [ha]
  · by_cases ht : b.team = B.team
    · by_cases hd : length S (B.pos - b.pos) > 50
      · simp [ha, ht, hd, not_le.2 hd]
      · simp [ha, ht, hd, not_lt.1 hd]
    · simp [ha, ht]

theorem Boid.cohesionBody_eq (B : Boid α) :
    B.cohesionBody S = fun st b =>
      if decide (b.addr ≠ B.addr ∧ b.team = B.team ∧ length S (B.pos - b.pos) ≤ 50)
        then (st.1 + b.pos, st.2 + 1) else st := by
  funext st b
  unfold Boid.cohesionBody
  by_cases ha : b.addr = B.addr
  · simp [ha]
  · by_cases ht : b.team = B.team
    · by_cases hd : length S (B.pos - b.pos) > 50
      · simp [ha, ht, hd, not_le.2 hd]
      · simp [ha, ht, hd, not_lt.1 hd]
    · simp [ha, ht]

theorem Boid.alignment_eq (B : Boid α) (N : List (Boid α)) :
    B.alignment S N =
      if (teamMates S B N).length = 0 then some 0
      else B.steer S (mean ((teamMates S B N).map Boid.vel)) := by
  unfold Boid.alignment teamMates
  rw [B.alignmentBody_eq S, sum_fold]
  simp only [bind, Option.bind, Vec3.zero_add_vec, Nat.zero_add]
  split_ifs with h
  · rfl
  · have hk : ((List.filter (fun b => decide (b.addr ≠ B.addr ∧ b.team = B.team ∧
        length S (B.pos - b.pos) ≤ 50)) N).length : α) ≠ 0 := Nat.cast_ne_zero.2 h
    rw [Vec3.div_of_ne _ hk]
    simp [mean]

theorem Boid.cohesion_eq (B : Boid α) (N : List (Boid α)) :
    B.cohesion S N =
      if (teamMates S B N).length = 0 then some 0
      else B.seek S (mean ((teamMates S B N).map Boid.pos)) := by
  unfold Boid.cohesion teamMates
  rw [B.cohesionBody_eq S, sum_fold]
  simp only [bind, Option.bind, Vec3.zero_add_vec, Nat.zero_add]
  split_ifs with h
  · rfl
  · have hk : ((List.filter (fun b => decide (b.addr ≠ B.addr ∧ b.team = B.team ∧
        length S (B.pos - b.pos) ≤ 50)) N).length : α) ≠ 0 := Nat.cast_ne_zero.2 h
    rw [Vec3.div_of_ne _ hk]
    simp [mean]

theorem teamMates_filter (B : Boid α) (N : List (Boid α)) :
    teamMates S B (N.filter fun n => n.team = B.team) = teamMates S B N := by
  unfold teamMates
  rw [List.filter_filter]
  congr 1
  funext n
  by_cases ht : n.team = B.team <;> simp [ht]

theorem mean_singleton (v : Vec3 α) : mean [v] = v := by
  unfold mean
  ext <;> simp

/-! ### Scenario S5 -/

theorem s5_closeOthers1 :
    closeOthers S (s5Boid1 : Boid α) [s5Boid1, s5Boid2] = [s5Boid2] := by
  have hd : length S ((s5Boid1 : Boid α).pos - (s5Boid2 : Boid α).pos) = 5 := by
    have hv : (s5Boid1 : Boid α).pos - (s5Boid2 : Boid α).pos = ⟨-5, 0, 0⟩ := by
      ext <;> simp [s5Boid1, s5Boid2]
    rw [hv, Vec3.length_x]
    norm_num
  have h1 : (1 : α) / 100000 < 5 := by norm_num
  have h2 : (5 : α) ≤ 20 := by norm_num
  have ha : (s5Boid2 : Boid α).addr ≠ (s5Boid1 : Boid α).addr := by simp [s5Boid1, s5Boid2]
  simp only [closeOthers, List.filter_cons, hd, h1, h2, ha, ne_eq, not_true_eq_false,
    false_and, decide_False, Bool.false_eq_true, if_false, not_false_eq_true, and_self,
    decide_True, if_true, List.filter_nil]

theorem s5_closeOthers2 :
    closeOthers S (s5Boid2 : Boid α) [s5Boid1, s5Boid2] = [s5Boid1] := by
  have hd : length S ((s5Boid2 : Boid α).pos - (s5Boid1 : Boid α).pos) = 5 := by
    have hv : (s5Boid2 : Boid α).pos - (s5Boid1 : Boid α).pos = ⟨5, 0, 0⟩ := by
      ext <;> simp [s5Boid1, s5Boid2]
    rw [hv, Vec3.length_x]
    norm_num
  have h1 : (1 : α) / 100000 < 5 := by norm_num
  have h2 : (5 : α) ≤ 20 := by norm_num
  have ha : (s5Boid1 : Boid α).addr ≠ (s5Boid2 : Boid α).addr := by simp [s5Boid1, s5Boid2]
  simp only [closeOthers, List.filter_cons, hd, h1, h2, ha, ne_eq, not_true_eq_false,
    false_and, decide_False, Bool.false_eq_true, if_false, not_false_eq_true, and_self,
    decide_True, if_true, List.filter_nil]

theorem s5_separation1 :
    (s5Boid1 : Boid α).separation S [s5Boid1, s5Boid2] = some ⟨-1, 0, 0⟩ := by
  have hr : repulsion S (s5Boid1 : Boid α) s5Boid2 = ⟨-(1 / 5), 0, 0⟩ := by
    have hv : (s5Boid1 : Boid α).pos - (s5Boid2 : Boid α).pos = ⟨-5, 0, 0⟩ := by
      ext <;> simp [s5Boid1, s5Boid2]
    unfold repulsion
    rw [hv, Vec3.length_x]
    ext <;> simp [scale]
    norm_num
  rw [Boid.separation_eq, s5_closeOthers1]
  simp only [List.length_singleton, one_ne_zero, if_false, List.map_cons, List.map_nil,
    mean_singleton, hr]
  rw [Boid.steer_x_of_neg S s5Boid1 (v := 0) rfl (by norm_num)]
  exact limit_x_of_lt S (by norm_num [s5Boid1]) (by norm_num [s5Boid1])

theorem s5_separation2 :
    (s5Boid2 : Boid α).separation S [s5Boid1, s5Boid2] = some ⟨1, 0, 0⟩ := by
  have hr : repulsion S (s5Boid2 : Boid α) s5Boid1 = ⟨1 / 5, 0, 0⟩ := by
    have hv : (s5Boid2 : Boid α).pos - (s5Boid1 : Boid α).pos = ⟨5, 0, 0⟩ := by
      ext <;> simp [s5Boid1, s5Boid2]
    unfold repulsion
    rw [hv, Vec3.length_x]
    ext <;> simp [scale]
    norm_num
  rw [Boid.separation_eq, s5_closeOthers2]
  simp only [List.length_singleton, one_ne_zero, if_false, List.map_cons, List.map_nil,
    mean_singleton, hr]
  rw [Boid.steer_x_of_pos S s5Boid2 (v := 0) rfl (by norm_num)]
  exact limit_x_of_gt S (by norm_num [s5Boid2]) (by norm_num [s5Boid2])

/-! ### The tie-breaker of `zseparation` -/

theorem s5_zseparation1 :
    (s5Boid1 : Boid α).zseparation S [s5Boid1, s5Boid2] = none := by
  have hd : length S ((s5Boid1 : Boid α).pos - (s5Boid2 : Boid α).pos) = 5 := by
    have hv : (s5Boid1 : Boid α).pos - (s5Boid2 : Boid α).pos = ⟨-5, 0, 0⟩ := by
      ext <;> simp [s5Boid1, s5Boid2]
    rw [hv, Vec3.length_x]
    norm_num
  have hr : ¬ ((5 : α) > 20 ∨ (5 : α) ≤ 1 / 100000) := by norm_num
  have ha : (s5Boid2 : Boid α).addr ≠ (s5Boid1 : Boid α).addr := by simp [s5Boid1, s5Boid2]
  have hz : ((s5Boid1 : Boid α).pos - (s5Boid2 : Boid α).pos).z = 0 := by
    simp [s5Boid1, s5Boid2]
  have hn : Vec3.normalize S (s5Boid1 : Boid α).vel = none := by
    rw [Vec3.normalize_eq, if_pos]
    exact (Vec3.length_eq_zero_iff S _).2 rfl
  have hbody : (s5Boid1 : Boid α).zseparationBody S (0, 0) s5Boid2 = none := by
    unfold Boid.zseparationBody
    simp only [ha, if_false, hd, hr, hz, if_true, hn, bind, Option.bind]
  have hself : (s5Boid1 : Boid α).zseparationBody S (0, 0) s5Boid1 = some (0, 0) := by
    simp [Boid.zseparationBody]
  simp only [Boid.zseparation, List.foldlM_cons, hself, Option.bind_eq_bind, Option.some_bind,
    hbody, Option.none_bind]

theorem cross_zseparation1 :
    (crossBoid1 : Boid α).zseparation S [crossBoid1, crossBoid2] = none := by
  have hd : length S ((crossBoid1 : Boid α).pos - (crossBoid2 : Boid α).pos) = 5 := by
    have hv : (crossBoid1 : Boid α).pos - (crossBoid2 : Boid α).pos = ⟨-5, 0, 0⟩ := by
      ext <;> simp [crossBoid1, crossBoid2]
    rw [hv, Vec3.length_x]
    norm_num
  have hr : ¬ ((5 : α) > 20 ∨ (5 : α) ≤ 1 / 100000) := by norm_num
  have ha : (crossBoid2 : Boid α).addr ≠ (crossBoid1 : Boid α).addr := by
    simp [crossBoid1, crossBoid2]
  have hz : ((crossBoid1 : Boid α).pos - (crossBoid2 : Boid α).pos).z = 0 := by
    simp [crossBoid1, crossBoid2]
  have hl1 : length S (crossBoid1 : Boid α).vel = 1 := by
    unfold length
    exact S.sqrt_eq_of_mul_self (by norm_num) (by simp [dot, crossBoid1])
  have hl2 : length S (crossBoid2 : Boid α).vel = 1 := by
    unfold length
    exact S.sqrt_eq_of_mul_self (by norm_num) (by simp [dot, crossBoid2])
  have hn1 : Vec3.normalize S (crossBoid1 : Boid α).vel = some ⟨1, 0, 0⟩ := by
    rw [Vec3.normalize_of_ne S _ (by rw [hl1]; norm_num), hl1]
    congr 1
    ext <;> simp [crossBoid1]
  have hn2 : Vec3.normalize S (crossBoid2 : Boid α).vel = some ⟨0, 1, 0⟩ := by
    rw [Vec3.normalize_of_ne S _ (by rw [hl2]; norm_num), hl2]
    congr 1
    ext <;> simp [crossBoid2]
  have hdot : dot (⟨1, 0, 0⟩ : Vec3 α) ⟨0, 1, 0⟩ = 0 := by simp [dot]
  have hbody : (crossBoid1 : Boid α).zseparationBody S (0, 0) crossBoid2 = none := by
    unfold Boid.zseparationBody
    simp only [ha, if_false, hd, hr, hz, if_true, hn1, hn2, bind, Option.bind, hdot, fdiv,
      abs_zero]
  have hself : (crossBoid1 : Boid α).zseparationBody S (0, 0) crossBoid1 = some (0, 0) := by
    simp [Boid.zseparationBody]
  simp only [Boid.zseparation, List.foldlM_cons, hself, Option.bind_eq_bind, Option.some_bind,
    hbody, Option.none_bind]

end Loops

/-! ## The frame of `calc_rotation_matrix` -/

section Frame

variable {α : Type} [LinearOrderedField α] (S : SqrtOp α)

theorem Vec3.length_neg (v : Vec3 α) : length S (-v) = length S v := by
  unfold length
  congr 1
  simp [dot]

theorem SqrtOp.sqrt_div_mul_self {a l : α} (ha : 0 ≤ a) (hl : 0 < l) :
    S.sqrt (a / (l * l)) = S.sqrt a / l := by
  apply S.sqrt_eq_of_mul_self (div_nonneg (S.sqrt_nonneg a) hl.le)
  rw [div_mul_div_comm, S.mul_self_sqrt a ha]

theorem SqrtOp.sqrt_lt_of_lt_mul_self {a l : α} (ha : 0 ≤ a) (hl : 0 ≤ l) (h : a < l * l) :
    S.sqrt a < l := by
  by_contra hn
  have hle : l ≤ S.sqrt a := not_lt.1 hn
  have h2 := mul_self_le_mul_self hl hle
  rw [S.mul_self_sqrt a ha] at h2
  exact absurd h (not_lt.2 h2)

theorem Boid.calc_rotation_matrix_eq (b : Boid α) (hv : b.vel ≠ 0) :
    b.calc_rotation_matrix S =
      some (cross ((-b.vel).scale (1 / length S b.vel)) ⟨0, 0, 1⟩,
        (-b.vel).scale (1 / length S b.vel),
        cross (cross ((-b.vel).scale (1 / length S b.vel)) ⟨0, 0, 1⟩)
          ((-b.vel).scale (1 / length S b.vel))) := by
  have hne : length S (-b.vel) ≠ 0 := by
    rw [Vec3.length_neg]
    exact fun h => hv ((Vec3.length_eq_zero_iff S _).1 h)
  unfold Boid.calc_rotation_matrix
  rw [Vec3.normalize_of_ne S _ hne, Vec3.length_neg]
  rfl

theorem frame_forward_unit (v : Vec3 α) (hv : v ≠ 0) :
    dot ((-v).scale (1 / length S v)) ((-v).scale (1 / length S v)) = 1 := by
  have hne : length S v ≠ 0 := fun h => hv ((Vec3.length_eq_zero_iff S _).1 h)
  have hsq := Vec3.length_mul_self S v
  have h : dot ((-v).scale (1 / length S v)) ((-v).scale (1 / length S v))
      = dot v v / (length S v * length S v) := by
    simp only [dot, scale_x, scale_y, scale_z, neg_x, neg_y, neg_z]
    field_simp
  rw [h, hsq, div_self]
  rw [← hsq]
  exact mul_ne_zero hne hne

theorem frame_right_sq (f : Vec3 α) :
    dot (cross f ⟨0, 0, 1⟩) (cross f ⟨0, 0, 1⟩) = f.x * f.x + f.y * f.y := by
  simp only [dot, cross]
  ring

theorem frame_up_sq (f : Vec3 α) :
    dot (cross (cross f ⟨0, 0, 1⟩) f) (cross (cross f ⟨0, 0, 1⟩) f)
      = (f.x * f.x + f.y * f.y) * dot f f := by
  simp only [dot, cross]
  ring

theorem frame_planar_sq (v : Vec3 α) (hv : v ≠ 0) :
    ((-v).scale (1 / length S v)).x * ((-v).scale (1 / length S v)).x
      + ((-v).scale (1 / length S v)).y * ((-v).scale (1 / length S v)).y
      = (v.x ^ 2 + v.y ^ 2) / (length S v * length S v) := by
  have hne : length S v ≠ 0 := fun h => hv ((Vec3.length_eq_zero_iff S _).1 h)
  simp only [scale_x, scale_y, neg_x, neg_y]
  field_simp
  ring

theorem frame_lengths (v : Vec3 α) (hv : v ≠ 0) :
    length S ((-v).scale (1 / length S v)) = 1 ∧
      length S (cross ((-v).scale (1 / length S v)) ⟨0, 0, 1⟩)
        = S.sqrt (v.x ^ 2 + v.y ^ 2) / length S v ∧
      length S (cross (cross ((-v).scale (1 / length S v)) ⟨0, 0, 1⟩)
          ((-v).scale (1 / length S v)))
        = S.sqrt (v.x ^ 2 + v.y ^ 2) / length S v := by
  have hne : length S v ≠ 0 := fun h => hv ((Vec3.length_eq_zero_iff S _).1 h)
  have hpos : 0 < length S v := lt_of_le_of_ne (Vec3.length_nonneg S v) (Ne.symm hne)
  have ha : 0 ≤ v.x ^ 2 + v.y ^ 2 := by positivity
  refine ⟨?_, ?_, ?_⟩
  · show S.sqrt (dot ((-v).scale (1 / length S v)) ((-v).scale (1 / length S v))) = 1
    rw [frame_forward_unit S v hv]
    exact S.sqrt_eq_of_mul_self (by norm_num) (by norm_num)
  · show S.sqrt (dot (cross ((-v).scale (1 / length S v)) ⟨0, 0, 1⟩)
      (cross ((-v).scale (1 / length S v)) ⟨0, 0, 1⟩)) = _
    rw [frame_right_sq, frame_planar_sq S v hv]
    exact S.sqrt_div_mul_self ha hpos
  · show S.sqrt (dot (cross (cross ((-v).scale (1 / length S v)) ⟨0, 0, 1⟩)
        ((-v).scale (1 / length S v)))
      (cross (cross ((-v).scale (1 / length S v)) ⟨0, 0, 1⟩)
        ((-v).scale (1 / length S v)))) = _
    rw [frame_up_sq, frame_forward_unit S v hv, mul_one, frame_planar_sq S v hv]
    exact S.sqrt_div_mul_self ha hpos

theorem frame_planar_ratio (v : Vec3 α) (hv : v ≠ 0) :
    (v.z = 0 → S.sqrt (v.x ^ 2 + v.y ^ 2) / length S v = 1) ∧
      (v.z ≠ 0 → S.sqrt (v.x ^ 2 + v.y ^ 2) / length S v < 1) := by
  have hne : length S v ≠ 0 := fun h => hv ((Vec3.length_eq_zero_iff S _).1 h)
  have hpos : 0 < length S v := lt_of_le_of_ne (Vec3.length_nonneg S v) (Ne.symm hne)
  have hsq := Vec3.length_mul_self S v
  constructor
  · intro hz
    have h : v.x ^ 2 + v.y ^ 2 = dot v v := by
      simp only [dot, hz]
      ring
    rw [h]
    exact div_self hne
  · intro hz
    rw [div_lt_one hpos]
    apply S.sqrt_lt_of_lt_mul_self (by positivity) hpos.le
    rw [hsq]
    have hz2 : 0 < v.z * v.z := mul_self_pos.2 hz
    simp only [dot]
    nlinarith

end Frame

/-! ## The world tick -/

section Tick

variable {α : Type} [LinearOrderedField α] (S : SqrtOp α)

theorem World.updateBody_append (c : Vec3 α) (dt : α) (done rest : List (Option (Boid α)))
    (body : Option (Boid α)) :
    World.updateBody S c ⟨done ++ body :: rest, dt⟩ done.length =
      ⟨done ++ bodyUpdate S c dt (done ++ body :: rest) body :: rest, dt⟩ := by
  have hget : (done ++ body :: rest)[done.length]? = some body := by
    rw [List.getElem?_append_right (le_refl _)]
    simp
  have hset : ∀ b1, (done ++ body :: rest).set done.length b1 = done ++ b1 :: rest := by
    intro b1
    rw [List.set_append_right _ _ (le_refl _)]
    simp
  unfold World.updateBody
  simp only [hget, hset]

theorem foldl_updateBody (c : Vec3 α) (dt : α) (todo : List (Option (Boid α))) :
    ∀ done : List (Option (Boid α)),
      (List.range' done.length todo.length).foldl (World.updateBody S c) ⟨done ++ todo, dt⟩ =
        ⟨sweep S c dt done todo, dt⟩ := by
  induction todo with
  | nil =>
    intro done
    simp [sweep]
  | cons body rest ih =>
    intro done
    rw [List.length_cons, List.range'_succ, List.foldl_cons, World.updateBody_append]
    have h := ih (done ++ [bodyUpdate S c dt (done ++ body :: rest) body])
    simp only [List.length_append, List.length_singleton, List.append_assoc,
      List.singleton_append] at h
    rw [h]
    simp only [sweep]

theorem World.update_eq_sweep (w : World α) (c : Vec3 α) :
    w.update S c = ⟨sweep S c w.dt [] w.bodies, w.dt⟩ := by
  have h := foldl_updateBody S c w.dt w.bodies []
  simp only [List.length_nil, List.nil_append] at h
  unfold World.update
  rw [List.range_eq_range']
  exact h

theorem sweep_spec (c : Vec3 α) (dt : α) (todo : List (Option (Boid α))) :
    ∀ done : List (Option (Boid α)),
      (sweep S c dt done todo).length = done.length + todo.length ∧
        (sweep S c dt done todo).take done.length = done ∧
        ∀ j, j < todo.length →
          (sweep S c dt done todo)[done.length + j]? =
            (todo[j]?).map
              (bodyUpdate S c dt ((sweep S c dt done todo).take (done.length + j) ++ todo.drop j))
    := by
  induction todo with
  | nil =>
    intro done
    simp [sweep]
  | cons body rest ih =>
    intro done
    simp only [sweep]
    obtain ⟨hlen, htake, hrest⟩ :=
      ih (done ++ [bodyUpdate S c dt (done ++ body :: rest) body])
    generalize sweep S c dt (done ++ [bodyUpdate S c dt (done ++ body :: rest) body]) rest
      = res at hlen htake hrest
    simp only [List.length_append, List.length_singleton] at hlen htake hrest
    have htake0 : res.take done.length = done := by
      have h2 := congrArg (List.take done.length) htake
      rw [List.take_take, Nat.min_eq_left (Nat.le_succ _)] at h2
      rw [h2]
      simp
    have hget0 : res[done.length]? = some (bodyUpdate S c dt (done ++ body :: rest) body) := by
      have h2 : (res.take (done.length + 1))[done.length]?
          = some (bodyUpdate S c dt (done ++ body :: rest) body) := by
        rw [htake, List.getElem?_append_right (le_refl _)]
        simp
      rw [List.getElem?_take_of_lt (Nat.lt_succ_self _)] at h2
      exact h2
    refine ⟨by rw [hlen, List.length_cons]; omega, htake0, ?_⟩
    intro j hj
    cases j with
    | zero =>
      simp only [Nat.add_zero, List.drop_zero, htake0, hget0, List.getElem?_cons_zero,
        Option.map_some']
    | succ j =>
      have h2 := hrest j (Nat.lt_of_succ_lt_succ hj)
      rw [show done.length + (j + 1) = done.length + 1 + j by omega, h2]
      simp

theorem World.update_steps (w : World α) (c : Vec3 α) :
    (w.update S c).dt = w.dt ∧ (w.update S c).bodies.length = w.bodies.length ∧
      ∀ k, (w.update S c).bodies[k]? =
        (w.bodies[k]?).map
          (bodyUpdate S c w.dt ((w.update S c).bodies.take k ++ w.bodies.drop k)) := by
  rw [World.update_eq_sweep]
  obtain ⟨hlen, _, hk⟩ := sweep_spec S c w.dt w.bodies []
  simp only [List.length_nil, Nat.zero_add] at hlen hk
  refine ⟨rfl, hlen, ?_⟩
  intro k
  by_cases h : k < w.bodies.length
  · exact hk k h
  · have h1 : w.bodies[k]? = none := List.getElem?_eq_none (not_lt.1 h)
    have h2 : (sweep S c w.dt [] w.bodies)[k]? = none :=
      List.getElem?_eq_none (by rw [hlen]; exact not_lt.1 h)
    simp only [h1, h2, Option.map_none']

theorem Boid.update_dt_zero (b : Boid α) (N : List (Boid α)) (c : Vec3 α) :
    b.update S N c 0 =
      (b.acc S N c).bind fun _ => (limit S b.vel b.maxspeed).map fun v => { b with vel := v } := by
  unfold Boid.update
  cases ha : b.acc S N c with
  | none => rfl
  | some a =>
    have hv : b.vel + a.scale 0 = b.vel := by ext <;> simp
    simp only [Option.bind_eq_bind, Option.some_bind, hv]
    cases hl : limit S b.vel b.maxspeed with
    | none => rfl
    | some v =>
      have hp : b.pos + v.scale 0 = b.pos := by ext <;> simp
      simp only [Option.some_bind, Option.map_some', hp]

end Tick

/-! ## The force limit -/

section Force

variable {α : Type} [LinearOrderedField α] (S : SqrtOp α)

theorem Boid.length_steer_le (b : Boid α) (hmf : 0 ≤ b.maxforce) (dir w : Vec3 α)
    (h : b.steer S dir = some w) : length S w ≤ b.maxforce := by
  rw [Boid.steer_eq] at h
  split_ifs at h
  · have hw : w = 0 := (Option.some.inj h).symm
    rw [hw, Vec3.length_zero]
    exact hmf
  · exact length_limit_le S _ _ hmf h

theorem length_ite_steer_le (b : Boid α) (hmf : 0 ≤ b.maxforce) (p : Prop) [Decidable p]
    (dir w : Vec3 α) (h : (if p then some 0 else b.steer S dir) = some w) :
    length S w ≤ b.maxforce := by
  split_ifs at h
  · have hw : w = 0 := (Option.some.inj h).symm
    rw [hw, Vec3.length_zero]
    exact hmf
  · exact b.length_steer_le S hmf dir w h

theorem Boid.length_separation_le (b : Boid α) (hmf : 0 ≤ b.maxforce) (N : List (Boid α))
    (w : Vec3 α) (h : b.separation S N = some w) : length S w ≤ b.maxforce := by
  rw [Boid.separation_eq] at h
  exact length_ite_steer_le S b hmf _ _ w h

theorem Boid.length_alignment_le (b : Boid α) (hmf : 0 ≤ b.maxforce) (N : List (Boid α))
    (w : Vec3 α) (h : b.alignment S N = some w) : length S w ≤ b.maxforce := by
  rw [Boid.alignment_eq] at h
  exact length_ite_steer_le S b hmf _ _ w h

theorem Boid.length_cohesion_le (b : Boid α) (hmf : 0 ≤ b.maxforce) (N : List (Boid α))
    (w : Vec3 α) (h : b.cohesion S N = some w) : length S w ≤ b.maxforce := by
  rw [Boid.cohesion_eq] at h
  exact length_ite_steer_le S b hmf _ _ w h

theorem Boid.length_zseparation_le (b : Boid α) (hmf : 0 ≤ b.maxforce) (N : List (Boid α))
    (w : Vec3 α) (h : b.zseparation S N = some w) : length S w ≤ b.maxforce := by
  unfold Boid.zseparation at h
  cases hf : List.foldlM (b.zseparationBody S) (0, 0) N with
  | none =>
    rw [hf] at h
    exact absurd h (by simp)
  | some st =>
    rw [hf] at h
    simp only [Option.bind_eq_bind, Option.some_bind] at h
    by_cases hz : st.2 = 0
    · rw [if_pos hz] at h
      have hw : w = 0 := (Option.some.inj h).symm
      rw [hw, Vec3.length_zero]
      exact hmf
    · rw [if_neg hz] at h
      cases hd : st.1.div (st.2 : α) with
      | none =>
        rw [hd] at h
        exact absurd h (by simp)
      | some sum =>
        rw [hd, Option.some_bind] at h
        exact b.length_steer_le S hmf sum w h

theorem Boid.acc_some (b : Boid α) (N : List (Boid α)) (c a : Vec3 α)
    (h : b.acc S N c = some a) :
    ∃ s al co ph zs sk, b.separation S N = some s ∧ b.alignment S N = some al ∧
      b.cohesion S N = some co ∧ b.planehug S = some ph ∧ b.zseparation S N = some zs ∧
      b.seek S c = some sk ∧ a = s.scale (3 / 2) + al + co + ph + zs + sk := by
  cases hs : b.separation S N with
  | none => simp [Boid.acc, hs] at h
  | some s =>
    cases hal : b.alignment S N with
    | none => simp [Boid.acc, hs, hal] at h
    | some al =>
      cases hco : b.cohesion S N with
      | none => simp [Boid.acc, hs, hal, hco] at h
      | some co =>
        cases hph : b.planehug S with
        | none => simp [Boid.acc, hs, hal, hco, hph] at h
        | some ph =>
          cases hzs : b.zseparation S N with
          | none => simp [Boid.acc, hs, hal, hco, hph, hzs] at h
          | some zs =>
            cases hsk : b.seek S c with
            | none => simp [Boid.acc, hs, hal, hco, hph, hzs, hsk] at h
            | some sk =>
              rw [b.acc_eq S N c hs hal hco hph hzs hsk] at h
              exact ⟨s, al, co, ph, zs, sk, rfl, rfl, rfl, rfl, rfl, rfl,
                (Option.some.inj h).symm⟩

theorem Boid.length_acc_le (b : Boid α) (hmf : 0 ≤ b.maxforce) (N : List (Boid α))
    (c a : Vec3 α) (h : b.acc S N c = some a) : length S a ≤ 13 / 2 * b.maxforce := by
  obtain ⟨s, al, co, ph, zs, sk, hs, hal, hco, hph, hzs, hsk, ha⟩ := b.acc_some S N c a h
  have h1 := b.length_separation_le S hmf N s hs
  have h2 := b.length_alignment_le S hmf N al hal
  have h3 := b.length_cohesion_le S hmf N co hco
  have h4 := b.length_steer_le S hmf _ ph hph
  have h5 := b.length_zseparation_le S hmf N zs hzs
  have h6 := b.length_steer_le S hmf _ sk hsk
  have hsc : length S (s.scale (3 / 2)) = 3 / 2 * length S s := by
    rw [Vec3.length_scale, abs_of_pos (by norm_num : (0 : α) < 3 / 2)]
  have t1 := Vec3.length_add_le S (s.scale (3 / 2) + al + co + ph + zs) sk
  have t2 := Vec3.length_add_le S (s.scale (3 / 2) + al + co + ph) zs
  have t3 := Vec3.length_add_le S (s.scale (3 / 2) + al + co) ph
  have t4 := Vec3.length_add_le S (s.scale (3 / 2) + al) co
  have t5 := Vec3.length_add_le S (s.scale (3 / 2)) al
  rw [ha]
  linarith

end Force

/-! ## Worked ticks -/

section Worked

variable {α : Type} [LinearOrderedField α] (S : SqrtOp α)

theorem query_nil (cx cy r : α) : query S ([] : List (Option (Boid α))) cx cy r = [] := rfl

theorem query_cons_none (rest : List (Option (Boid α))) (cx cy r : α) :
    query S (none :: rest) cx cy r = query S rest cx cy r := by
  simp [query]

theorem query_cons_of_le (b : Boid α) (rest : List (Option (Boid α))) (cx cy r : α)
    (h : S.sqrt ((b.pos.x - cx) * (b.pos.x - cx) + (b.pos.y - cy) * (b.pos.y - cy)) ≤ r) :
    query S (some b :: rest) cx cy r = b :: query S rest cx cy r := by
  simp [query, List.filter_cons, h]

theorem query_cons_of_gt (b : Boid α) (rest : List (Option (Boid α))) (cx cy r : α)
    (h : r < S.sqrt ((b.pos.x - cx) * (b.pos.x - cx) + (b.pos.y - cy) * (b.pos.y - cy))) :
    query S (some b :: rest) cx cy r = query S rest cx cy r := by
  simp [query, List.filter_cons, not_le.2 h]

theorem planar_distance (a b : α) (d : α) (hd : 0 ≤ d) (h : d * d = a * a + b * b) :
    S.sqrt (a * a + b * b) = d :=
  S.sqrt_eq_of_mul_self hd h

/-! ### Where `zseparation` has no value -/

theorem Boid.acc_none_of_zseparation (b : Boid α) (N : List (Boid α)) (c : Vec3 α)
    (h : b.zseparation S N = none) : b.acc S N c = none := by
  cases ha : b.acc S N c with
  | none => rfl
  | some a =>
    obtain ⟨_, _, _, _, zs, _, _, _, _, _, hzs, _⟩ := b.acc_some S N c a ha
    rw [h] at hzs
    exact absurd hzs (by simp)

theorem Boid.update_none_of_acc (b : Boid α) (N : List (Boid α)) (c : Vec3 α) (dt : α)
    (h : b.acc S N c = none) : b.update S N c dt = none := by
  unfold Boid.update
  rw [h]
  rfl

theorem s5_update1 (c : Vec3 α) (dt : α) :
    (s5Boid1 : Boid α).update S [s5Boid1, s5Boid2] c dt = none :=
  Boid.update_none_of_acc S _ _ c dt
    (Boid.acc_none_of_zseparation S _ _ c (s5_zseparation1 S))

theorem no_state_of_none {β : Type} (o : Option β) (p : β → Prop) (h : o = none) :
    ¬ ∃ x, o = some x ∧ p x := by
  rintro ⟨x, hx, _⟩
  rw [h] at hx
  exact absurd hx (by simp)

/-! ### The tick of scenario S5 -/

theorem still_tick :
    (stillWorld : World α).update S s4Target = ⟨[none, some s5Boid2], 0⟩ := by
  have hq1 : query S [some (s5Boid1 : Boid α), some s5Boid2] (s5Boid1 : Boid α).pos.x
      (s5Boid1 : Boid α).pos.y 50 = [s5Boid1, s5Boid2] := by
    rw [query_cons_of_le, query_cons_of_le, query_nil]
    · rw [planar_distance S _ _ 5 (by norm_num) (by norm_num [s5Boid1, s5Boid2])]
      norm_num
    · rw [planar_distance S _ _ 0 (le_refl _) (by simp)]
      norm_num
  have hq2 : query S [none, some (s5Boid2 : Boid α)] (s5Boid2 : Boid α).pos.x
      (s5Boid2 : Boid α).pos.y 50 = [s5Boid2] := by
    rw [query_cons_none, query_cons_of_le, query_nil]
    rw [planar_distance S _ _ 0 (le_refl _) (by simp)]
    norm_num
  have ha := (Boid.tick_toward S (s5Boid2 : Boid α) (x := 5) (v := 0) rfl rfl rfl rfl
    (by norm_num) (by norm_num) (by norm_num)).1
  have hl : limit S (s5Boid2 : Boid α).vel (s5Boid2 : Boid α).maxspeed = some 0 := by
    apply limit_of_le
    have h0 : (s5Boid2 : Boid α).vel = 0 := rfl
    rw [h0, Vec3.length_zero]
    norm_num [s5Boid2]
  have hu2 : (s5Boid2 : Boid α).update S [s5Boid2] s4Target 0 = some s5Boid2 := by
    rw [Boid.update_dt_zero, ha, Option.some_bind, hl]
    rfl
  rw [World.update_eq_sweep]
  simp only [stillWorld, sweep, bodyUpdate, List.nil_append, Option.some_bind, hq1, s5_update1,
    List.singleton_append, hq2, hu2, List.cons_append]

/-! ### A tick with a negative time step -/

theorem retro_tick :
    (retroWorld : World α).update S s4Target =
      ⟨[some ⟨0, ⟨1 / 100, 0, 0⟩, ⟨-(1 / 10), 0, 0⟩, 40, 1, 0⟩], -(1 / 10)⟩ := by
  have hq : query S [some (s4Boid : Boid α)] (s4Boid : Boid α).pos.x
      (s4Boid : Boid α).pos.y 50 = [s4Boid] := by
    rw [query_cons_of_le, query_nil]
    rw [planar_distance S _ _ 0 (le_refl _) (by simp)]
    norm_num
  have ha := (Boid.tick_toward S (s4Boid : Boid α) (x := 0) (v := 0) rfl rfl rfl rfl
    (by norm_num) (by norm_num) (by norm_num)).1
  have hvel : (s4Boid : Boid α).vel + (⟨1, 0, 0⟩ : Vec3 α).scale (-(1 / 10))
      = ⟨-(1 / 10), 0, 0⟩ := by
    ext <;> simp [s4Boid, scale]
  have hl : limit S ((s4Boid : Boid α).vel + (⟨1, 0, 0⟩ : Vec3 α).scale (-(1 / 10)))
      (s4Boid : Boid α).maxspeed = some ⟨-(1 / 10), 0, 0⟩ := by
    rw [hvel]
    apply limit_x_of_abs_le
    rw [abs_le]
    constructor <;> norm_num [s4Boid]
  have hu := Boid.update_eq S (s4Boid : Boid α) [s4Boid] s4Target (-(1 / 10)) ha hl
  rw [World.update_eq_sweep]
  simp only [retroWorld, sweep, bodyUpdate, List.nil_append, Option.some_bind, hq, hu]
  norm_num [s4Boid, scale, Vec3.zero_add_vec]

/-! ### Motion along the z axis -/

end Worked

/-! ## Claims -/

section Claims

variable {α : Type} [LinearOrderedField α]

/-- C1: `Boid::update` on a boid `b` with neighbour list `N`, cursor `c` and
time step `dt`: when the six steering terms, all evaluated on the state
before the update, are `s` (separation), `al` (alignment), `co` (cohesion),
`ph` (plane-hug, that is `seek((pos.x, pos.y, 0))`), `zs` (z-separation) and
`sk` (`seek(c)`), the acceleration is
`a = 1.5*s + 1.0*al + 1.0*co + 1.0*ph + 1.0*zs + 1.0*sk`; the new velocity is
`v1 = limit(vel + a*dt, maxspeed)` and the new position is `pos + v1*dt`
(the limited velocity); `maxspeed`, `maxforce` and `team` are unchanged. -/
theorem update_spec (S : SqrtOp α) (b : Boid α) (N : List (Boid α)) (c : Vec3 α) (dt : α)
    (s al co ph zs sk v1 : Vec3 α)
    (hs : b.separation S N = some s) (hal : b.alignment S N = some al)
    (hco : b.cohesion S N = some co)
    (hph : b.seek S ⟨b.pos.x, b.pos.y, 0⟩ = some ph)
    (hzs : b.zseparation S N = some zs) (hsk : b.seek S c = some sk)
    (hv : limit S (b.vel + (s.scale (3 / 2) + al.scale 1 + co.scale 1 + ph.scale 1
      + zs.scale 1 + sk.scale 1).scale dt) b.maxspeed = some v1) :
    b.planehug S = some ph ∧
      b.acc S N c = some (s.scale (3 / 2) + al.scale 1 + co.scale 1 + ph.scale 1
        + zs.scale 1 + sk.scale 1) ∧
      b.update S N c dt =
        some ⟨b.addr, b.pos + v1.scale dt, v1, b.maxspeed, b.maxforce, b.team⟩ := by
  have hph1 : b.planehug S = some ph := by rw [b.planehug_eq_seek S]; exact hph
  have ha := b.acc_eq S N c hs hal hco hph1 hzs hsk
  simp only [scale_one] at hv ⊢
  exact ⟨hph1, ha, b.update_eq S N c dt ha hv⟩

/-- Witness of C1: scenario S4 over the real numbers. -/
theorem update_spec_witness :
    (s4Boid : Boid ℝ).planehug realSqrt = some 0 ∧
      (s4Boid : Boid ℝ).acc realSqrt [s4Boid] s4Target =
        some ((0 : Vec3 ℝ).scale (3 / 2) + (0 : Vec3 ℝ).scale 1 + (0 : Vec3 ℝ).scale 1
          + (0 : Vec3 ℝ).scale 1 + (0 : Vec3 ℝ).scale 1 + (⟨1, 0, 0⟩ : Vec3 ℝ).scale 1) ∧
      (s4Boid : Boid ℝ).update realSqrt [s4Boid] s4Target (1 / 10) =
        some ⟨0, (0 : Vec3 ℝ) + (⟨1 / 10, 0, 0⟩ : Vec3 ℝ).scale (1 / 10), ⟨1 / 10, 0, 0⟩,
          40, 1, 0⟩ := by
  have hseek : (s4Boid : Boid ℝ).seek realSqrt s4Target = some ⟨1, 0, 0⟩ := by
    have hd : (s4Target : Vec3 ℝ) - (s4Boid : Boid ℝ).pos = ⟨100, 0, 0⟩ := by
      ext <;> simp [s4Target, s4Boid]
    unfold Boid.seek
    rw [hd, Boid.steer_x_of_pos realSqrt s4Boid (v := 0) rfl (by norm_num)]
    exact limit_x_of_gt realSqrt (by norm_num [s4Boid]) (by norm_num [s4Boid])
  have hplane : (s4Boid : Boid ℝ).seek realSqrt
      ⟨(s4Boid : Boid ℝ).pos.x, (s4Boid : Boid ℝ).pos.y, 0⟩ = some 0 :=
    Boid.planehug_of_z realSqrt s4Boid rfl
  have hlim : limit realSqrt ((s4Boid : Boid ℝ).vel + ((0 : Vec3 ℝ).scale (3 / 2)
      + (0 : Vec3 ℝ).scale 1 + (0 : Vec3 ℝ).scale 1 + (0 : Vec3 ℝ).scale 1
      + (0 : Vec3 ℝ).scale 1 + (⟨1, 0, 0⟩ : Vec3 ℝ).scale 1).scale (1 / 10))
      (s4Boid : Boid ℝ).maxspeed = some ⟨1 / 10, 0, 0⟩ := by
    have hvec : (s4Boid : Boid ℝ).vel + ((0 : Vec3 ℝ).scale (3 / 2)
        + (0 : Vec3 ℝ).scale 1 + (0 : Vec3 ℝ).scale 1 + (0 : Vec3 ℝ).scale 1
        + (0 : Vec3 ℝ).scale 1 + (⟨1, 0, 0⟩ : Vec3 ℝ).scale 1).scale (1 / 10)
        = ⟨1 / 10, 0, 0⟩ := by
      ext <;> simp [s4Boid, scale]
    rw [hvec]
    apply limit_x_of_abs_le
    norm_num [s4Boid, abs_le]
  exact update_spec realSqrt s4Boid [s4Boid] s4Target (1 / 10) 0 0 0 0 0 ⟨1, 0, 0⟩
    ⟨1 / 10, 0, 0⟩ (Boid.separation_self realSqrt s4Boid)
    (Boid.alignment_self realSqrt s4Boid) (Boid.cohesion_self realSqrt s4Boid)
    hplane (Boid.zseparation_self realSqrt s4Boid) hseek hlim

/-- C2: `steer(dir)` is the zero vector when `|dir| < 0.000001` and
`limit(dir*(maxspeed/|dir|) - vel, maxforce)` otherwise (the division is then
always defined); `limit(v, L)` is `v*(L/|v|)` when `|v| > L` (with the same
domain of definition as that quotient) and `v` otherwise; and
`seek(target) = steer(target - pos)`. -/
theorem steer_limit_seek_spec (S : SqrtOp α) (b : Boid α) (dir v target : Vec3 α) (L : α) :
    (b.steer S dir =
        if length S dir < 1 / 1000000 then some 0
        else limit S (dir.scale (b.maxspeed / length S dir) - b.vel) b.maxforce) ∧
      (limit S v L =
        if length S v > L then (fdiv L (length S v)).map fun q => v.scale q else some v) ∧
      b.seek S target = b.steer S (target - b.pos) :=
  ⟨b.steer_eq S dir, limit_eq S v L, rfl⟩

/-- C3: `separation(N) = steer(S/k)`, where `S` sums
`(B.pos - n.pos)/|B.pos - n.pos|^2` over the `k` entries `n` of `N` other than
`B` with `|B.pos - n.pos|` in `(0.00001, 20]`, whatever their team, and
`separation(N)` is the zero vector when `k = 0`; in scenario S5 (boids at
`(0,0,0)` and `(5,0,0)`, at rest, `maxspeed = 40`, `maxforce = 1`) the two
separation vectors are `(-1,0,0)` and `(1,0,0)`. -/
theorem separation_spec (S : SqrtOp α) (B : Boid α) (N : List (Boid α)) :
    (B.separation S N =
        if (closeOthers S B N).length = 0 then some 0
        else B.steer S (mean ((closeOthers S B N).map (repulsion S B)))) ∧
      (s5Boid1 : Boid α).separation S [s5Boid1, s5Boid2] = some ⟨-1, 0, 0⟩ ∧
      (s5Boid2 : Boid α).separation S [s5Boid1, s5Boid2] = some ⟨1, 0, 0⟩ :=
  ⟨B.separation_eq S N, s5_separation1 S, s5_separation2 S⟩

/-- C4: `alignment(N)` is `steer` of the mean of `n.vel` over the entries `n`
of `N` other than `A` with `n.team = A.team` and `|A.pos - n.pos| <= 50`, and
the zero vector when there is no such entry; two neighbour lists with the
same entries of the team of `A` give the same alignment; and with `B` another
boid of the team of `A` within 50 units and `C` of another team, the
alignment of `A` among `[A, B, C]` is `steer(B.vel)`. -/
theorem alignment_spec (S : SqrtOp α) (A B C : Boid α) (N M : List (Boid α)) :
    (A.alignment S N =
        if (teamMates S A N).length = 0 then some 0
        else A.steer S (mean ((teamMates S A N).map Boid.vel))) ∧
      ((N.filter fun n => n.team = A.team) = (M.filter fun n => n.team = A.team) →
        A.alignment S N = A.alignment S M) ∧
      (B.addr ≠ A.addr → B.team = A.team → C.team ≠ A.team →
        length S (A.pos - B.pos) ≤ 50 → A.alignment S [A, B, C] = A.steer S B.vel) := by
  refine ⟨A.alignment_eq S N, ?_, ?_⟩
  · intro h
    rw [A.alignment_eq S N, A.alignment_eq S M, ← teamMates_filter S A N,
      ← teamMates_filter S A M, h]
  · intro hB hBt hCt hd
    have ht : teamMates S A [A, B, C] = [B] := by
      simp [teamMates, List.filter_cons, hB, hBt, hCt, hd]
    rw [A.alignment_eq S, ht]
    simp [mean_singleton]

/-- Witness of C4: scenario S6 over the real numbers (A and B in team 0, five
units apart; C in team 1): dropping C changes nothing, and the alignment of A
is `steer(B.vel)`. -/
theorem alignment_spec_witness :
    (s6BoidA : Boid ℝ).alignment realSqrt [s6BoidA, s6BoidB, s6BoidC] =
        (s6BoidA : Boid ℝ).alignment realSqrt [s6BoidA, s6BoidB] ∧
      (s6BoidA : Boid ℝ).alignment realSqrt [s6BoidA, s6BoidB, s6BoidC] =
        (s6BoidA : Boid ℝ).steer realSqrt (s6BoidB : Boid ℝ).vel := by
  have hd : length realSqrt ((s6BoidA : Boid ℝ).pos - (s6BoidB : Boid ℝ).pos) ≤ 50 := by
    have h5 : length realSqrt ((s6BoidA : Boid ℝ).pos - (s6BoidB : Boid ℝ).pos) = 5 := by
      unfold length
      apply realSqrt.sqrt_eq_of_mul_self (by norm_num)
      simp [dot, s6BoidA, s6BoidB]
      norm_num
    rw [h5]
    norm_num
  have h := alignment_spec realSqrt s6BoidA s6BoidB s6BoidC [s6BoidA, s6BoidB, s6BoidC]
    [s6BoidA, s6BoidB]
  exact ⟨h.2.1 (by simp [List.filter_cons, s6BoidA, s6BoidB, s6BoidC]),
    h.2.2 (by simp [s6BoidA, s6BoidB]) rfl (by simp [s6BoidA, s6BoidC]) hd⟩

/-- C5: `cohesion(N) = seek(centroid) = steer(centroid - B.pos)`, where
`centroid` is the mean of `n.pos` over the entries `n` of `N` other than `B`
with `n.team = B.team` and `|B.pos - n.pos| <= 50`, and `cohesion(N)` is the
zero vector when there is no such entry. -/
theorem cohesion_spec (S : SqrtOp α) (B : Boid α) (N : List (Boid α)) :
    (B.cohesion S N =
        if (teamMates S B N).length = 0 then some 0
        else B.seek S (mean ((teamMates S B N).map Boid.pos))) ∧
      B.seek S (mean ((teamMates S B N).map Boid.pos)) =
        B.steer S (mean ((teamMates S B N).map Boid.pos) - B.pos) :=
  ⟨B.cohesion_eq S N, rfl⟩

/-- C6, the code on two failing inputs: for a coplanar neighbour in range,
`Boid::zseparation` has no value (a NaN) when the velocities are zero
(scenario S5: `normalize` of the zero vector) and when the unit velocities are
perpendicular (`dz /= fabsf(dz)` with `dz = 0`), where the claim has the
neighbour contribute exactly 0. -/
theorem zseparation_degenerate (S : SqrtOp α) :
    (s5Boid1 : Boid α).zseparation S [s5Boid1, s5Boid2] = none ∧
      (crossBoid1 : Boid α).zseparation S [crossBoid1, crossBoid2] = none :=
  ⟨s5_zseparation1 S, cross_zseparation1 S⟩

/-- C7: scenario S4 (a single boid at the origin, at rest, `maxspeed = 40`,
`maxforce = 1`, cursor `(100, 0, 0)`, `dt = 0.1`, neighbour list the boid
itself): one `Boid::update` computes the acceleration `(1, 0, 0)` and leaves
`vel = (0.1, 0, 0)` and `pos = (0.01, 0, 0)`. -/
theorem s4_first_tick (S : SqrtOp α) :
    (s4Boid : Boid α).acc S [s4Boid] s4Target = some ⟨1, 0, 0⟩ ∧
      (s4Boid : Boid α).update S [s4Boid] s4Target (1 / 10) =
        some ⟨0, ⟨1 / 100, 0, 0⟩, ⟨1 / 10, 0, 0⟩, 40, 1, 0⟩ := by
  have h := Boid.tick_toward S (s4Boid : Boid α) (x := 0) (v := 0) rfl rfl rfl rfl
    (by norm_num) (by norm_num) (by norm_num)
  refine ⟨h.1, ?_⟩
  rw [h.2]
  norm_num [s4Boid]

/-- C8, the code on a failing input: in scenario S5 (`maxspeed = 40 >= 0`)
the first boid, whose radius-50 query finds both boids, gets no state from
`Boid::update`, whatever the target and the time step: `zseparation` divides
by zero, so the new velocity and position are NaN and no bound
`|vel'| <= maxspeed` or `|pos' - pos| <= maxspeed*dt` holds of them.  This is
the defect of C6. -/
theorem speed_limit_nan (S : SqrtOp α) (c : Vec3 α) (dt : α) :
    0 ≤ (s5Boid1 : Boid α).maxspeed ∧
      (s5Boid1 : Boid α).update S [s5Boid1, s5Boid2] c dt = none ∧
      (¬ ∃ b1, (s5Boid1 : Boid α).update S [s5Boid1, s5Boid2] c dt = some b1 ∧
        length S b1.vel ≤ (s5Boid1 : Boid α).maxspeed) ∧
      ¬ ∃ b1, (s5Boid1 : Boid α).update S [s5Boid1, s5Boid2] c dt = some b1 ∧
        length S (b1.pos - (s5Boid1 : Boid α).pos) ≤ (s5Boid1 : Boid α).maxspeed * dt :=
  ⟨by norm_num [s5Boid1], s5_update1 S c dt,
    no_state_of_none _ _ (s5_update1 S c dt), no_state_of_none _ _ (s5_update1 S c dt)⟩

/-- The speed limit where `Boid::update` yields a state: for a boid with
`maxspeed >= 0` and a time step `dt >= 0`, a `Boid::update` that yields a
state leaves `|vel'| <= maxspeed` and `|pos' - pos| <= maxspeed*dt`; after the
updates of `inputs` (any neighbour lists and targets, same `dt`) that all
yield a state the boid is at most `maxspeed*n*dt` from its starting position,
`n` the number of updates; and in scenario S4 every tick yields a state and
`x` never exceeds `40*t`, with `t = n*dt`. -/
theorem speed_limit_spec (S : SqrtOp α) (b b1 b2 : Boid α) (N : List (Boid α)) (c : Vec3 α)
    (dt : α) (inputs : List (List (Boid α) × Vec3 α)) (n : Nat)
    (hms : 0 ≤ b.maxspeed) (hdt : 0 ≤ dt) :
    (b.update S N c dt = some b1 →
        length S b1.vel ≤ b.maxspeed ∧ length S (b1.pos - b.pos) ≤ b.maxspeed * dt) ∧
      (Boid.updates S dt inputs b = some b2 →
        length S (b2.pos - b.pos) ≤ b.maxspeed * (inputs.length : α) * dt) ∧
      ∃ b3, runSingle S s4Target dt n (s4Boid : Boid α) = some b3 ∧
        b3.pos.x ≤ 40 * ((n : α) * dt) := by
  refine ⟨b.update_bounds S b1 N c dt hms hdt,
    fun h => (Boid.updates_bound S dt hdt inputs b b2 hms h).2, ?_⟩
  obtain ⟨b3, hrun, _, _, hd⟩ := runSingle_total S s4Target dt hdt (s4Boid : Boid α)
    (by norm_num [s4Boid]) (by norm_num [s4Boid]) n
  refine ⟨b3, hrun, ?_⟩
  have hx := (le_abs_self _).trans (Vec3.abs_x_le_length S (b3.pos - (s4Boid : Boid α).pos))
  have h0 : (b3.pos - (s4Boid : Boid α).pos).x = b3.pos.x := by simp [s4Boid]
  have h40 : (s4Boid : Boid α).maxspeed = 40 := rfl
  rw [h0] at hx
  rw [h40] at hd
  linarith

/-- An instance of `speed_limit_spec`: the first tick of scenario S4 over the
real numbers. -/
theorem speed_limit_spec_witness :
    (length realSqrt (⟨1 / 10, 0, 0⟩ : Vec3 ℝ) ≤ 40 ∧
        length realSqrt ((⟨1 / 100, 0, 0⟩ : Vec3 ℝ) - 0) ≤ 40 * (1 / 10)) ∧
      length realSqrt ((⟨1 / 100, 0, 0⟩ : Vec3 ℝ) - 0) ≤ 40 * ((1 : Nat) : ℝ) * (1 / 10) := by
  have hupd : (s4Boid : Boid ℝ).update realSqrt [s4Boid] s4Target (1 / 10) =
      some ⟨0, ⟨1 / 100, 0, 0⟩, ⟨1 / 10, 0, 0⟩, 40, 1, 0⟩ := by
    rw [(Boid.tick_toward realSqrt (s4Boid : Boid ℝ) (x := 0) (v := 0) rfl rfl rfl rfl
      (by norm_num) (by norm_num) (by norm_num)).2]
    norm_num [s4Boid]
  have hupds : Boid.updates realSqrt (1 / 10) [([s4Boid], s4Target)] (s4Boid : Boid ℝ) =
      some ⟨0, ⟨1 / 100, 0, 0⟩, ⟨1 / 10, 0, 0⟩, 40, 1, 0⟩ := by
    simp only [Boid.updates, hupd, Option.some_bind]
  have h := speed_limit_spec realSqrt (s4Boid : Boid ℝ)
    ⟨0, ⟨1 / 100, 0, 0⟩, ⟨1 / 10, 0, 0⟩, 40, 1, 0⟩ ⟨0, ⟨1 / 100, 0, 0⟩, ⟨1 / 10, 0, 0⟩, 40, 1, 0⟩
    [s4Boid] s4Target (1 / 10) [([s4Boid], s4Target)] 1 (by norm_num [s4Boid]) (by norm_num)
  exact ⟨h.1 hupd, h.2.1 hupds⟩

/-- C9 fails: in scenario S4 the boid, never braking, passes the target
`(100, 0, 0)` during tick 141 (`x = 100.11`, `vel.x = 14.1`) and tick 142
takes it further away (`x = 101.51`): the distance to the target grows from
`0.11` to `1.51`, so progress is not monotonic over the 1000 ticks. -/
theorem s4_overshoot :
    runSingle realSqrt s4Target (1 / 10) 141 (s4Boid : Boid ℝ) =
        some ⟨0, ⟨10011 / 100, 0, 0⟩, ⟨141 / 10, 0, 0⟩, 40, 1, 0⟩ ∧
      runSingle realSqrt s4Target (1 / 10) 142 (s4Boid : Boid ℝ) =
        some ⟨0, ⟨10151 / 100, 0, 0⟩, ⟨14, 0, 0⟩, 40, 1, 0⟩ ∧
      length realSqrt ((⟨10011 / 100, 0, 0⟩ : Vec3 ℝ) - s4Target) = 11 / 100 ∧
      length realSqrt ((⟨10151 / 100, 0, 0⟩ : Vec3 ℝ) - s4Target) = 151 / 100 ∧
      ¬ ∀ k : Nat, k < 1000 → ∀ b1 b2 : Boid ℝ,
        runSingle realSqrt s4Target (1 / 10) k s4Boid = some b1 →
        runSingle realSqrt s4Target (1 / 10) (k + 1) s4Boid = some b2 →
        length realSqrt (b2.pos - s4Target) ≤ length realSqrt (b1.pos - s4Target) := by
  have h141 : runSingle realSqrt s4Target (1 / 10) 141 (s4Boid : Boid ℝ) =
      some ⟨0, ⟨10011 / 100, 0, 0⟩, ⟨141 / 10, 0, 0⟩, 40, 1, 0⟩ := by
    rw [s4_state realSqrt 141 (le_refl _)]
    norm_num
  have h142 := s4_state_142 realSqrt
  have hd1 : length realSqrt ((⟨10011 / 100, 0, 0⟩ : Vec3 ℝ) - s4Target) = 11 / 100 := by
    rw [s4_distance]
    norm_num
  have hd2 : length realSqrt ((⟨10151 / 100, 0, 0⟩ : Vec3 ℝ) - s4Target) = 151 / 100 := by
    rw [s4_distance]
    norm_num
  refine ⟨h141, h142, hd1, hd2, ?_⟩
  intro hall
  have h := hall 141 (by norm_num) _ _ h141 h142
  simp only [hd1, hd2] at h
  norm_num at h

/-- C9 as amended: in scenario S4, for every tick `k` with `0 <= k < 141`,
ticks `k` and `k + 1` both yield a state, the distance from the boid to
`(100, 0, 0)` after tick `k + 1` is smaller than after tick `k`, and `x` does
not decrease. -/
theorem s4_progress (S : SqrtOp α) (k : Nat) (hk : k < 141) :
    ∃ b1 b2 : Boid α,
      runSingle S s4Target (1 / 10) k s4Boid = some b1 ∧
      runSingle S s4Target (1 / 10) (k + 1) s4Boid = some b2 ∧
      length S (b2.pos - s4Target) < length S (b1.pos - s4Target) ∧
      b1.pos.x ≤ b2.pos.x := by
  have hk1 : (k : α) ≤ 140 := by exact_mod_cast Nat.le_of_lt_succ hk
  have h0 : (0 : α) ≤ k := Nat.cast_nonneg k
  refine ⟨_, _, s4_state S k (Nat.le_of_lt hk), s4_state S (k + 1) hk, ?_, ?_⟩
  · simp only [s4_distance]
    push_cast
    have hx : (k : α) * (k + 1) / 200 - 100 < 0 := by nlinarith
    rw [abs_of_neg hx, abs_lt]
    constructor <;> nlinarith
  · show (k : α) * (k + 1) / 200 ≤ ((k + 1 : Nat) : α) * (((k + 1 : Nat) : α) + 1) / 200
    push_cast
    nlinarith

/-- Witness of C9 as amended: tick 140 to tick 141 over the real numbers. -/
theorem s4_progress_witness :
    ∃ b1 b2 : Boid ℝ,
      runSingle realSqrt s4Target (1 / 10) 140 s4Boid = some b1 ∧
      runSingle realSqrt s4Target (1 / 10) (140 + 1) s4Boid = some b2 ∧
      length realSqrt (b2.pos - s4Target) < length realSqrt (b1.pos - s4Target) ∧
      b1.pos.x ≤ b2.pos.x :=
  s4_progress realSqrt 140 (by norm_num)

/-- C10, the code on a failing input: for the velocity `(3, 0, 4)`, neither
zero nor parallel to `(0, 0, 1)`, the columns built by `calc_rotation_matrix`
are `right = (0, 3/5, 0)`, `forward = (-3/5, 0, -4/5)` and
`up = (-12/25, 0, 9/25)`; `right` is not normalised, so `right` and `up` have
length `3/5`, not 1, and the matrix is not a rotation. -/
theorem rotation_frame_not_unit :
    (climbBoid : Boid ℝ).calc_rotation_matrix realSqrt =
        some (⟨0, 3 / 5, 0⟩, ⟨-(3 / 5), 0, -(4 / 5)⟩, ⟨-(12 / 25), 0, 9 / 25⟩) ∧
      length realSqrt (⟨0, 3 / 5, 0⟩ : Vec3 ℝ) = 3 / 5 ∧
      length realSqrt (⟨-(12 / 25), 0, 9 / 25⟩ : Vec3 ℝ) = 3 / 5 ∧
      length realSqrt (⟨0, 3 / 5, 0⟩ : Vec3 ℝ) ≠ 1 ∧
      length realSqrt (⟨-(12 / 25), 0, 9 / 25⟩ : Vec3 ℝ) ≠ 1 := by
  have hv : (climbBoid : Boid ℝ).vel ≠ 0 := by
    intro h
    have hx := congrArg Vec3.x h
    simp [climbBoid] at hx
  have hl : length realSqrt (climbBoid : Boid ℝ).vel = 5 := by
    unfold length
    apply realSqrt.sqrt_eq_of_mul_self (by norm_num)
    simp [dot, climbBoid]
    norm_num
  have hr : length realSqrt (⟨0, 3 / 5, 0⟩ : Vec3 ℝ) = 3 / 5 := by
    unfold length
    apply realSqrt.sqrt_eq_of_mul_self (by norm_num)
    simp [dot]
  have hu : length realSqrt (⟨-(12 / 25), 0, 9 / 25⟩ : Vec3 ℝ) = 3 / 5 := by
    unfold length
    apply realSqrt.sqrt_eq_of_mul_self (by norm_num)
    simp [dot]
    norm_num
  refine ⟨?_, hr, hu, by rw [hr]; norm_num, by rw [hu]; norm_num⟩
  rw [Boid.calc_rotation_matrix_eq realSqrt climbBoid hv, hl]
  simp [cross, scale, climbBoid]
  norm_num

/-- What `calc_rotation_matrix` computes: for every non-zero velocity the
columns are `forward = -vel/|vel|`, `right = forward x (0,0,1)` and
`up = right x forward`; they are pairwise orthogonal, `forward` has length
exactly 1, and `right` and `up` both have length
`sqrt(vel.x^2 + vel.y^2)/|vel|`, which is 1 when `vel.z = 0` and less than 1
when `vel.z` is not 0. -/
theorem rotation_frame_spec (S : SqrtOp α) (b : Boid α) (hv : b.vel ≠ 0) :
    ∃ right forward up : Vec3 α,
      b.calc_rotation_matrix S = some (right, forward, up) ∧
      forward = (-b.vel).scale (1 / length S b.vel) ∧
      right = cross forward ⟨0, 0, 1⟩ ∧ up = cross right forward ∧
      dot right forward = 0 ∧ dot right up = 0 ∧ dot forward up = 0 ∧
      length S forward = 1 ∧
      length S right = S.sqrt (b.vel.x ^ 2 + b.vel.y ^ 2) / length S b.vel ∧
      length S up = S.sqrt (b.vel.x ^ 2 + b.vel.y ^ 2) / length S b.vel ∧
      (b.vel.z = 0 → length S right = 1 ∧ length S up = 1) ∧
      (b.vel.z ≠ 0 → length S right < 1 ∧ length S up < 1) := by
  obtain ⟨hf, hr, hu⟩ := frame_lengths S b.vel hv
  obtain ⟨h1, h2⟩ := frame_planar_ratio S b.vel hv
  refine ⟨_, _, _, b.calc_rotation_matrix_eq S hv, rfl, rfl, rfl, ?_, ?_, ?_, hf, hr, hu, ?_, ?_⟩
  · simp only [dot, cross]
    ring
  · simp only [dot, cross]
    ring
  · simp only [dot, cross]
    ring
  · intro hz
    rw [hr, hu]
    exact ⟨h1 hz, h1 hz⟩
  · intro hz
    rw [hr, hu]
    exact ⟨h2 hz, h2 hz⟩

/-- An instance of `rotation_frame_spec`: the velocity `(3, 0, 4)` over the
real numbers. -/
theorem rotation_frame_spec_witness :
    ∃ right forward up : Vec3 ℝ,
      (climbBoid : Boid ℝ).calc_rotation_matrix realSqrt = some (right, forward, up) ∧
      dot right forward = 0 ∧ dot right up = 0 ∧ dot forward up = 0 ∧
      length realSqrt forward = 1 ∧ length realSqrt right < 1 ∧ length realSqrt up < 1 := by
  have hv : (climbBoid : Boid ℝ).vel ≠ 0 := by
    intro h
    have hx := congrArg Vec3.x h
    simp [climbBoid] at hx
  obtain ⟨r, f, u, hm, _, _, _, h1, h2, h3, h4, _, _, _, h5⟩ :=
    rotation_frame_spec realSqrt climbBoid hv
  have hz : (climbBoid : Boid ℝ).vel.z ≠ 0 := by simp [climbBoid]
  exact ⟨r, f, u, hm, h1, h2, h3, h4, (h5 hz).1, (h5 hz).2⟩

/-- C12 fails: `World::update` makes no check of `dt`.  With `dt = -0.1` the
tick of the world of scenario S4 is not refused and the body is modified: the
boid moves from `(0, 0, 0)` to `(0.01, 0, 0)` and its velocity becomes
`(-0.1, 0, 0)`. -/
theorem nonpositive_dt_steps :
    (retroWorld : World ℝ).dt ≤ 0 ∧
      (retroWorld : World ℝ).update realSqrt s4Target =
        ⟨[some ⟨0, ⟨1 / 100, 0, 0⟩, ⟨-(1 / 10), 0, 0⟩, 40, 1, 0⟩], -(1 / 10)⟩ ∧
      ((retroWorld : World ℝ).update realSqrt s4Target).bodies ≠ (retroWorld : World ℝ).bodies ∧
      ¬ ∀ (w : World ℝ) (c : Vec3 ℝ), w.dt ≤ 0 → (w.update realSqrt c).bodies = w.bodies := by
  have hdt : (retroWorld : World ℝ).dt ≤ 0 := by norm_num [retroWorld]
  have hu := retro_tick realSqrt
  have hne : ((retroWorld : World ℝ).update realSqrt s4Target).bodies
      ≠ (retroWorld : World ℝ).bodies := by
    rw [hu]
    intro h
    simp only [retroWorld, s4Boid, List.cons.injEq, Option.some.injEq, Boid.mk.injEq,
      and_true, true_and] at h
    have hx := congrArg Vec3.x h.1
    norm_num at hx
  exact ⟨hdt, hu, hne, fun hall => hne (hall retroWorld s4Target hdt)⟩

/-- C12 as amended: for every world and every `dt <= 0` the tick is not
refused: `World::update` makes no check of `dt` and steps the simulation with
that `dt` like with any other, replacing every body in list order by the
result of its `Boid::update` with that `dt` (a body whose update has no value
is left without one).  When `dt = 0`, a body whose acceleration has a value
keeps its position and its velocity becomes `limit(vel, maxspeed)`, and a body
whose acceleration has no value is left without position and velocity. -/
theorem nonpositive_dt_spec (S : SqrtOp α) (w : World α) (c : Vec3 α) (_hdt : w.dt ≤ 0) :
    (w.update S c).dt = w.dt ∧ (w.update S c).bodies.length = w.bodies.length ∧
      (∀ k, (w.update S c).bodies[k]? =
        (w.bodies[k]?).map
          (bodyUpdate S c w.dt ((w.update S c).bodies.take k ++ w.bodies.drop k))) ∧
      (w.dt = 0 → ∀ (bodies : List (Option (Boid α))) (b : Boid α),
        bodyUpdate S c w.dt bodies (some b) =
          (b.acc S (query S bodies b.pos.x b.pos.y 50) c).bind fun _ =>
            (limit S b.vel b.maxspeed).map fun v => { b with vel := v }) := by
  obtain ⟨h1, h2, h3⟩ := World.update_steps S w c
  refine ⟨h1, h2, h3, ?_⟩
  intro h0 bodies b
  rw [h0]
  exact Boid.update_dt_zero S b _ c

/-- Witness of C12 as amended: the world of scenario S5 with `dt = 0` over the
real numbers.  The tick is carried out: the first boid, whose acceleration has
no value, is left without position and velocity, and the second keeps its
state. -/
theorem nonpositive_dt_spec_witness :
    ((stillWorld : World ℝ).update realSqrt s4Target).bodies.length
        = (stillWorld : World ℝ).bodies.length ∧
      (∀ k, ((stillWorld : World ℝ).update realSqrt s4Target).bodies[k]? =
        ((stillWorld : World ℝ).bodies[k]?).map
          (bodyUpdate realSqrt s4Target (stillWorld : World ℝ).dt
            (((stillWorld : World ℝ).update realSqrt s4Target).bodies.take k
              ++ (stillWorld : World ℝ).bodies.drop k))) ∧
      (∀ (bodies : List (Option (Boid ℝ))) (b : Boid ℝ),
        bodyUpdate realSqrt s4Target (stillWorld : World ℝ).dt bodies (some b) =
          (b.acc realSqrt (query realSqrt bodies b.pos.x b.pos.y 50) s4Target).bind fun _ =>
            (limit realSqrt b.vel b.maxspeed).map fun v => { b with vel := v }) ∧
      (stillWorld : World ℝ).update realSqrt s4Target = ⟨[none, some s5Boid2], 0⟩ := by
  have h := nonpositive_dt_spec realSqrt (stillWorld : World ℝ) s4Target
    (by norm_num [stillWorld])
  exact ⟨h.2.1, h.2.2.1, h.2.2.2 rfl, still_tick realSqrt⟩

/-- C13, the code on two failing inputs: for a boid with `maxforce = 1 >= 0`
whose neighbour list holds a coplanar boid in range, `zseparation` and with
it the acceleration of `Boid::update` have no value (NaN) when the velocities
are zero (scenario S5) and when they are perpendicular, whatever the target;
no bound `|zseparation(N)| <= maxforce` or `|a| <= 6.5*maxforce` holds of
them.  This is the defect of C6. -/
theorem force_limit_nan (S : SqrtOp α) (c : Vec3 α) :
    0 ≤ (s5Boid1 : Boid α).maxforce ∧ 0 ≤ (crossBoid1 : Boid α).maxforce ∧
      (s5Boid1 : Boid α).acc S [s5Boid1, s5Boid2] c = none ∧
      (crossBoid1 : Boid α).acc S [crossBoid1, crossBoid2] c = none ∧
      (¬ ∃ w, (s5Boid1 : Boid α).zseparation S [s5Boid1, s5Boid2] = some w ∧
        length S w ≤ (s5Boid1 : Boid α).maxforce) ∧
      ¬ ∃ a, (s5Boid1 : Boid α).acc S [s5Boid1, s5Boid2] c = some a ∧
        length S a ≤ 13 / 2 * (s5Boid1 : Boid α).maxforce :=
  ⟨by norm_num [s5Boid1], by norm_num [crossBoid1],
    Boid.acc_none_of_zseparation S _ _ c (s5_zseparation1 S),
    Boid.acc_none_of_zseparation S _ _ c (cross_zseparation1 S),
    no_state_of_none _ _ (s5_zseparation1 S),
    no_state_of_none _ _ (Boid.acc_none_of_zseparation S _ _ c (s5_zseparation1 S))⟩

/-- The force limit where the terms have a value: for a boid with
`maxforce >= 0`, `steer(dir)` has magnitude at most `maxforce`, and so have
`separation(N)`, `alignment(N)`, `cohesion(N)`, `zseparation(N)`, the
plane-hug term and `seek(target)`; the acceleration computed by `Boid::update`
has magnitude at most `6.5*maxforce`. -/
theorem force_limit_spec (S : SqrtOp α) (b : Boid α) (N : List (Boid α))
    (dir target c : Vec3 α) (hmf : 0 ≤ b.maxforce) :
    (∀ w, b.steer S dir = some w → length S w ≤ b.maxforce) ∧
      (∀ w, b.separation S N = some w → length S w ≤ b.maxforce) ∧
      (∀ w, b.alignment S N = some w → length S w ≤ b.maxforce) ∧
      (∀ w, b.cohesion S N = some w → length S w ≤ b.maxforce) ∧
      (∀ w, b.zseparation S N = some w → length S w ≤ b.maxforce) ∧
      (∀ w, b.planehug S = some w → length S w ≤ b.maxforce) ∧
      (∀ w, b.seek S target = some w → length S w ≤ b.maxforce) ∧
      ∀ a, b.acc S N c = some a → length S a ≤ 13 / 2 * b.maxforce :=
  ⟨b.length_steer_le S hmf dir, b.length_separation_le S hmf N,
    b.length_alignment_le S hmf N, b.length_cohesion_le S hmf N,
    b.length_zseparation_le S hmf N, fun w h => b.length_steer_le S hmf _ w h,
    fun w h => b.length_steer_le S hmf _ w h, b.length_acc_le S hmf N c⟩

/-- An instance of `force_limit_spec`: scenario S4 over the real numbers,
where `seek` and the acceleration are both `(1, 0, 0)`. -/
theorem force_limit_spec_witness :
    length realSqrt (⟨1, 0, 0⟩ : Vec3 ℝ) ≤ (s4Boid : Boid ℝ).maxforce ∧
      length realSqrt (⟨1, 0, 0⟩ : Vec3 ℝ) ≤ 13 / 2 * (s4Boid : Boid ℝ).maxforce := by
  have ha := (Boid.tick_toward realSqrt (s4Boid : Boid ℝ) (x := 0) (v := 0) rfl rfl rfl rfl
    (by norm_num) (by norm_num) (by norm_num)).1
  have hsk : (s4Boid : Boid ℝ).seek realSqrt s4Target = some ⟨1, 0, 0⟩ := by
    have hd : (s4Target : Vec3 ℝ) - (s4Boid : Boid ℝ).pos = ⟨100, 0, 0⟩ := by
      ext <;> simp [s4Target, s4Boid]
    unfold Boid.seek
    rw [hd, Boid.steer_x_of_pos realSqrt s4Boid (v := 0) rfl (by norm_num)]
    exact limit_x_of_gt realSqrt (by norm_num [s4Boid]) (by norm_num [s4Boid])
  have h := force_limit_spec realSqrt s4Boid [s4Boid] 0 s4Target s4Target
    (by norm_num [s4Boid])
  exact ⟨h.2.2.2.2.2.2.1 _ hsk, h.2.2.2.2.2.2.2 _ ha⟩

end Claims

end Space
